import Mathlib

/-!
# acme-client `util.c`: channel codec, signal-safe writer, supervisor, privilege drop

A shallow embedding of `readop`, `readbuf`, `writeop`, `writebuf`, `checkexit`
and `dropprivs` of `src/util.c`.  System and library calls (`read`, `write`,
`signal`, `calloc`, `free`, `waitpid`, the identity-setting calls) are oracles
over an abstract kernel state; each function threads an explicit process state
and records the calls it issues.  Machine integers are `Nat`/`Int` with the
wrap-around of their C type written out.
-/

namespace AcmeUtil

/-! ## Bytes and object representations -/

/-- One octet of memory or of the channel. -/
abbrev Byte := Fin 256

/-- The `w` low-order base-256 digits of `n`, least significant first. -/
def leBytes : Nat → Nat → List Byte
  | 0, _ => []
  | w + 1, n => ⟨n % 256, Nat.mod_lt n (by decide)⟩ :: leBytes w (n / 256)

/-- The number whose base-256 digits, least significant first, are `bs`. -/
def leValue : List Byte → Nat
  | [] => 0
  | b :: bs => b.val + 256 * leValue bs

/-- The target ABI: the widths `sizeof(size_t)` (also that of `ssize_t`) and
`sizeof(long)` in bytes, and the native byte order.  `sizeof(long)` is a count
a `read`/`write` can report, so it is at most `SSIZE_MAX`. -/
structure ABI where
  sizeBytes : Nat
  longBytes : Nat
  bigEndian : Bool
  sizeBytes_pos : 0 < sizeBytes
  longBytes_pos : 0 < longBytes
  longBytes_fit : longBytes < 256 ^ sizeBytes / 2

namespace ABI

/-- Number of values of `size_t`: `SIZE_MAX + 1`. -/
def sizeMod (abi : ABI) : Nat := 256 ^ abi.sizeBytes

/-- Number of values of `long`. -/
def longMod (abi : ABI) : Nat := 256 ^ abi.longBytes

def SIZE_MAX (abi : ABI) : Nat := abi.sizeMod - 1

def SSIZE_MAX (abi : ABI) : Nat := abi.sizeMod / 2 - 1

def LONG_MAX (abi : ABI) : Int := (abi.longMod / 2 : Nat) - 1

def LONG_MIN (abi : ABI) : Int := -((abi.longMod / 2 : Nat) : Int)

/-- Arithmetic in `size_t` is modulo `SIZE_MAX + 1`. -/
def wrapSize (abi : ABI) (n : Nat) : Nat := n % abi.sizeMod

/-- The value an `ssize_t` holds when its bit pattern is that of `n`
(two's complement). -/
def toSsize (abi : ABI) (n : Nat) : Int :=
  if n % abi.sizeMod < abi.sizeMod / 2 then ((n % abi.sizeMod : Nat) : Int)
  else ((n % abi.sizeMod : Nat) : Int) - (abi.sizeMod : Int)

/-- The cast `(size_t)ssz`. -/
def toSizeT (abi : ABI) (ssz : Int) : Nat := (ssz % (abi.sizeMod : Int)).toNat

/-- Bytes in memory order from least-significant-first digits. -/
def order (abi : ABI) (bs : List Byte) : List Byte :=
  if abi.bigEndian then bs.reverse else bs

/-- Object representation of the `size_t` value `n`. -/
def bytesOfSize (abi : ABI) (n : Nat) : List Byte :=
  abi.order (leBytes abi.sizeBytes n)

/-- The `size_t` value whose object representation is `bs`. -/
def sizeOfBytes (abi : ABI) (bs : List Byte) : Nat :=
  leValue (abi.order bs)

/-- Object representation of the `long` value `v` (two's complement). -/
def bytesOfLong (abi : ABI) (v : Int) : List Byte :=
  abi.order (leBytes abi.longBytes (v % (abi.longMod : Int)).toNat)

/-- The `long` value whose object representation is `bs`. -/
def longOfBytes (abi : ABI) (bs : List Byte) : Int :=
  if leValue (abi.order bs) % abi.longMod < abi.longMod / 2
  then ((leValue (abi.order bs) % abi.longMod : Nat) : Int)
  else ((leValue (abi.order bs) % abi.longMod : Nat) : Int) - (abi.longMod : Int)

/-- The common 64-bit little-endian ABI (LP64). -/
def lp64 : ABI :=
  { sizeBytes := 8, longBytes := 8, bigEndian := false,
    sizeBytes_pos := by decide, longBytes_pos := by decide,
    longBytes_fit := by decide }

end ABI

/-! ## Diagnostics and the process state -/

/-- The logical channel names of `enum comm`, in the order of the `comms` table. -/
inductive comm
  | COMM_REQ | COMM_THUMB | COMM_CERT | COMM_PAY | COMM_NONCE | COMM_TOK
  | COMM_CHNG_OP | COMM_CHNG_ACK | COMM_SIGN | COMM_CSR | COMM_ISSUER | COMM_CHAIN
deriving DecidableEq, Repr

/-- The table `comms[COMM__MAX]`. -/
def comms : comm → String
  | .COMM_REQ => "req"
  | .COMM_THUMB => "thumbprint"
  | .COMM_CERT => "cert"
  | .COMM_PAY => "payload"
  | .COMM_NONCE => "nonce"
  | .COMM_TOK => "token"
  | .COMM_CHNG_OP => "challenge-op"
  | .COMM_CHNG_ACK => "challenge-ack"
  | .COMM_SIGN => "account"
  | .COMM_CSR => "csr"
  | .COMM_ISSUER => "issuer"
  | .COMM_CHAIN => "chain"

/-- A diagnostic: `dowarn` (with `errno`) or `dowarnx`, its format and arguments. -/
inductive Diag
  | dowarn (fmt : String) (args : List String)
  | dowarnx (fmt : String) (args : List String)
deriving DecidableEq, Repr

/-- A disposition of `SIGPIPE`: the two standard ones, this file's handler
`sigpipe`, or some handler installed by other code. -/
inductive Handler
  | SIG_DFL
  | SIG_IGN
  | sigpipe
  | other (id : Nat)
deriving DecidableEq, Repr

/-- What one `read(fd, buf, n)` did: `-1`, or the bytes it stored at `buf`. -/
inductive ReadOutcome
  | error
  | data (bs : List Byte)
deriving DecidableEq, Repr

/-- What one `write(fd, buf, n)` did: `-1` (with `SIGPIPE` raised when the
peer is gone), or the number of bytes it took. -/
inductive WriteOutcome
  | error (epipe : Bool)
  | count (k : Nat)
deriving DecidableEq, Repr

namespace ReadOutcome

/-- A read of `n` bytes stores at most `n` bytes. -/
def clip (n : Nat) : ReadOutcome → ReadOutcome
  | error => error
  | data bs => data (bs.take n)

/-- The bytes stored into the caller's buffer. -/
def stored : ReadOutcome → List Byte
  | error => []
  | data bs => bs

/-- The return value as the `ssize_t` variable `ssz` holds it. -/
def ret (abi : ABI) : ReadOutcome → Int
  | error => -1
  | data bs => abi.toSsize bs.length

end ReadOutcome

namespace WriteOutcome

/-- The return value as the `ssize_t` variable `ssz` holds it. -/
def ret (abi : ABI) : WriteOutcome → Int
  | error _ => -1
  | count k => abi.toSsize k

/-- Whether the kernel raised `SIGPIPE` during the call. -/
def raised : WriteOutcome → Bool
  | error e => e
  | count _ => false

end WriteOutcome

/-- A library or system call issued by the process, with its result. -/
inductive Event
  | signal (h old : Handler)
  | read (fd : Int) (n : Nat) (r : ReadOutcome)
  | write (fd : Int) (buf : List Byte) (n : Nat) (disp : Handler) (r : WriteOutcome)
  | calloc (nmemb size : Nat) (ok : Bool)
  | free (null : Bool)
  | diag (d : Diag)
deriving DecidableEq, Repr

namespace Event

def isWrite : Event → Bool
  | write _ _ _ _ _ => true
  | _ => false

/-- The `SIGPIPE` disposition in force when a `write` was issued. -/
def writeDisp : Event → Option Handler
  | write _ _ _ d _ => some d
  | _ => none

end Event

/-- The kernel and allocator as seen by the channel functions: arbitrary
behaviours over an abstract state `κ`. -/
structure Kernel (κ : Type) where
  read : Int → Nat → κ → ReadOutcome × κ
  write : Int → List Byte → Nat → κ → WriteOutcome × κ
  calloc : Nat → Nat → κ → Bool × κ

/-- The state of the calling process: the kernel state it acts on, its
`SIGPIPE` disposition, the file-scope `static volatile sig_atomic_t sig`,
whether it is still running, and the calls it has issued. -/
structure Proc (κ : Type) where
  kern : κ
  disp : Handler
  sig : Int
  alive : Bool
  trace : List Event

namespace Proc

/-- A process that has issued no call yet. -/
def start {κ : Type} (k : κ) (h : Handler) (s : Int) : Proc κ :=
  { kern := k, disp := h, sig := s, alive := true, trace := [] }

def emit {κ : Type} (p : Proc κ) (e : Event) : Proc κ :=
  { p with trace := p.trace ++ [e] }

end Proc

/-- The handler `sigpipe(int code)`: records that the signal occurred. -/
def sigpipe {κ : Type} (_code : Int) (p : Proc κ) : Proc κ :=
  { p with sig := 1 }

def SIGPIPE : Int := 13

/-- Delivery of `SIGPIPE` under the disposition in force.  A handler of other
code is outside this file; its effect is not modelled. -/
def deliver {κ : Type} (p : Proc κ) : Proc κ :=
  match p.disp with
  | .sigpipe => sigpipe SIGPIPE p
  | .SIG_DFL => { p with alive := false }
  | .SIG_IGN => p
  | .other _ => p

def dowarn {κ : Type} (fmt : String) (args : List String) (p : Proc κ) : Proc κ :=
  p.emit (.diag (.dowarn fmt args))

def dowarnx {κ : Type} (fmt : String) (args : List String) (p : Proc κ) : Proc κ :=
  p.emit (.diag (.dowarnx fmt args))

/-- The call `signal(SIGPIPE, h)`: installs `h`, returns the previous disposition.
`SIGPIPE` can be caught, so the call does not fail. -/
def signal {κ : Type} (h : Handler) (p : Proc κ) : Handler × Proc κ :=
  (p.disp, { p with disp := h, trace := p.trace ++ [Event.signal h p.disp] })

/-- The call `read(fd, buf, n)`. -/
def sysRead {κ : Type} (K : Kernel κ) (fd : Int) (n : Nat) (p : Proc κ) :
    ReadOutcome × Proc κ :=
  let r := (K.read fd n p.kern).1.clip n
  (r, { p with kern := (K.read fd n p.kern).2, trace := p.trace ++ [Event.read fd n r] })

/-- The call `write(fd, buf, n)`; a `SIGPIPE` it raises is delivered before it returns. -/
def sysWrite {κ : Type} (K : Kernel κ) (fd : Int) (buf : List Byte) (n : Nat) (p : Proc κ) :
    WriteOutcome × Proc κ :=
  let r := (K.write fd buf n p.kern).1
  let p1 : Proc κ :=
    { p with kern := (K.write fd buf n p.kern).2,
             trace := p.trace ++ [Event.write fd buf n p.disp r] }
  (r, if r.raised then deliver p1 else p1)

/-- The call `calloc(nmemb, size)`: whether it returned non-NULL. -/
def sysCalloc {κ : Type} (K : Kernel κ) (nmemb size : Nat) (p : Proc κ) : Bool × Proc κ :=
  let ok := (K.calloc nmemb size p.kern).1
  (ok, { p with kern := (K.calloc nmemb size p.kern).2,
                trace := p.trace ++ [Event.calloc nmemb size ok] })

/-- The call `free(p)`. -/
def sysFree {κ : Type} (null : Bool) (p : Proc κ) : Proc κ :=
  p.emit (.free null)

/-- Memory after `bs` was stored at the start of an object holding `mem`. -/
def overlay (bs mem : List Byte) : List Byte := bs ++ mem.drop bs.length

/-! ## The channel codec -/

/-- Function `long readop(int fd, enum comm comm)`.  `op` is only returned after a full
read, when every byte of it was stored by `read`. -/
def readop {κ : Type} (abi : ABI) (K : Kernel κ) (fd : Int) (c : comm) (p : Proc κ) :
    Int × Proc κ :=
  let r := sysRead K fd abi.longBytes p
  let ssz := r.1.ret abi
  let op := abi.longOfBytes r.1.stored
  if ssz < 0 then
    (abi.LONG_MAX, dowarn "read: %s" [comms c] r.2)
  else if ssz ≠ 0 ∧ abi.toSizeT ssz ≠ abi.longBytes then
    (abi.LONG_MAX, dowarnx "short read: %s" [comms c] r.2)
  else if 0 = ssz then
    (0, r.2)
  else
    (op, r.2)

/-- Result of `readbuf`: the returned pointer (`none` for NULL, else the
contents of the heap object), the value of `*sz` after the call, and the
process state. -/
structure BufRes (κ : Type) where
  p : Option (List Byte)
  sz : Nat
  proc : Proc κ

/-- Function `char *readbuf(int fd, enum comm comm, size_t *sz)`; `sz0` is what `*sz`
held before the call. -/
def readbuf {κ : Type} (abi : ABI) (K : Kernel κ) (fd : Int) (c : comm) (sz0 : Nat)
    (p : Proc κ) : BufRes κ :=
  let r1 := sysRead K fd abi.sizeBytes p
  let sz := abi.sizeOfBytes ((overlay r1.1.stored (abi.bytesOfSize sz0)).take abi.sizeBytes)
  if r1.1.ret abi < 0 then
    { p := none, sz := sz,
      proc := sysFree true (dowarn "read: %s length" [comms c] r1.2) }
  else if abi.toSizeT (r1.1.ret abi) ≠ abi.sizeBytes then
    { p := none, sz := sz,
      proc := sysFree true (dowarnx "short read: %s length" [comms c] r1.2) }
  else
    let a := sysCalloc K 1 (abi.wrapSize (sz + 1)) r1.2
    if a.1 = false then
      { p := none, sz := sz, proc := sysFree true (dowarn "malloc" [] a.2) }
    else
      let mem0 : List Byte := List.replicate (abi.wrapSize (sz + 1)) 0
      let r2 := sysRead K fd sz a.2
      let mem := overlay r2.1.stored mem0
      if r2.1.ret abi < 0 then
        { p := none, sz := sz, proc := sysFree false (dowarn "read: %s" [comms c] r2.2) }
      else if abi.toSizeT (r2.1.ret abi) ≠ sz then
        { p := none, sz := sz, proc := sysFree false (dowarnx "short read: %s" [comms c] r2.2) }
      else
        { p := some mem, sz := sz, proc := r2.2 }

/-- Function `int writeop(int fd, enum comm comm, long op)`.  The local `sig` shadows
the file-scope flag, so the closing `sig = 0` only clears the local. -/
def writeop {κ : Type} (abi : ABI) (K : Kernel κ) (fd : Int) (c : comm) (op : Int)
    (p : Proc κ) : Int × Proc κ :=
  let s := signal Handler.sigpipe p
  let w := sysWrite K fd (abi.bytesOfLong op) abi.longBytes s.2
  let r : Int × Proc κ :=
    if w.1.ret abi < 0 then
      (0, dowarn "write: %s" [comms c] w.2)
    else if abi.toSizeT (w.1.ret abi) ≠ abi.longBytes then
      (0, dowarnx "short write: %s" [comms c] w.2)
    else
      (1, w.2)
  (r.1, (signal s.1 r.2).2)

/-- Function `int writebuf(int fd, enum comm comm, const void *v, size_t sz)`; `v` is
the memory at the pointer. -/
def writebuf {κ : Type} (abi : ABI) (K : Kernel κ) (fd : Int) (c : comm) (v : List Byte)
    (sz : Nat) (p : Proc κ) : Int × Proc κ :=
  let n := abi.wrapSize sz
  let s := signal Handler.sigpipe p
  let w1 := sysWrite K fd (abi.bytesOfSize n) abi.sizeBytes s.2
  let r : Int × Proc κ :=
    if w1.1.ret abi < 0 then
      (0, dowarn "write: %s length" [comms c] w1.2)
    else if abi.toSizeT (w1.1.ret abi) ≠ abi.sizeBytes then
      (0, dowarnx "short write: %s length" [comms c] w1.2)
    else
      let w2 := sysWrite K fd (v.take n) n w1.2
      if w2.1.ret abi < 0 then
        (0, dowarn "write: %s" [comms c] w2.2)
      else if abi.toSizeT (w2.1.ret abi) ≠ n then
        (0, dowarnx "short write: %s" [comms c] w2.2)
      else
        (1, w2.2)
  (r.1, (signal s.1 r.2).2)

/-- A channel as a FIFO byte queue whose writer end is closed after the data
shown: a write appends all of its bytes, a read takes the bytes asked for as
far as they are queued (none at end-of-channel).  `grant` says which
allocation sizes `calloc` serves. -/
def fifo (grant : Nat → Bool) : Kernel (List Byte) where
  read := fun _ n q => (ReadOutcome.data (q.take n), q.drop n)
  write := fun _ buf n q => (WriteOutcome.count n, q ++ buf.take n)
  calloc := fun nmemb size q => (grant (nmemb * size), q)

/-- A kernel on which every call fails: reads and writes return `-1` (the
peer is gone), `calloc` returns NULL. -/
def broken : Kernel Unit where
  read := fun _ _ u => (ReadOutcome.error, u)
  write := fun _ _ _ u => (WriteOutcome.error true, u)
  calloc := fun _ _ u => (false, u)

/-- The bytes of a buffer frame: the length field, then the payload. -/
def frame (abi : ABI) (b : List Byte) : List Byte :=
  abi.bytesOfSize b.length ++ b

/-! ## The process supervisor -/

/-- Status test `WTERMSIG(c)`: the low seven bits of a wait status (`c & 0177`), in the
layout `<sys/wait.h>` uses on the BSDs and on Linux. -/
def WTERMSIG (c : Nat) : Nat := c % 128

/-- Status test `WIFEXITED(c)`: the low seven bits are zero. -/
def WIFEXITED (c : Nat) : Bool := WTERMSIG c == 0

/-- Status field `WEXITSTATUS(c)`: bits 8 to 15 (`(c >> 8) & 0xff`). -/
def WEXITSTATUS (c : Nat) : Nat := (c / 256) % 256

/-- Status test `WIFSIGNALED(c)`: the low seven bits are neither zero nor `0177` (stopped). -/
def WIFSIGNALED (c : Nat) : Bool := WTERMSIG c != 0 && WTERMSIG c != 127

def EXIT_SUCCESS : Nat := 0

/-- How a reaped child ended: a normal exit with an eight-bit code, death by a
signal numbered `sig + 1` (with or without a core dump), or a stop. -/
inductive ChildEnd
  | exited (code : Fin 256)
  | signaled (sig : Fin 126) (core : Bool)
  | stopped (sig : Fin 256)
deriving DecidableEq, Repr

/-- The wait status the kernel stores for a child that ended so. -/
def ChildEnd.wstatus : ChildEnd → Nat
  | .exited code => code.val * 256
  | .signaled sig core => (sig.val + 1) + (if core then 128 else 0)
  | .stopped sig => sig.val * 256 + 127

/-- Function `int checkexit(pid_t pid, enum comp comp)`.  `waitpid` gives the return
value of `waitpid(pid, &c, 0)` and the status it stored in `c`; `compname` and
`sys_signame` are the name tables used by the diagnostics. -/
def checkexit (waitpid : Int → Int × Nat) (compname : Nat → String)
    (sys_signame : Nat → String) (pid : Int) (comp : Nat) : Int × List Diag :=
  let w := waitpid pid
  let c := w.2
  if -1 = w.1 then
    (0, [Diag.dowarn "waitpid" []])
  else if ¬ WIFEXITED c then
    (0, [Diag.dowarnx "bad exit: %s(%u) (%s)"
          [compname comp, toString pid,
           if WIFSIGNALED c then sys_signame (WTERMSIG c) else "not-a-signal"]])
  else if EXIT_SUCCESS ≠ WEXITSTATUS c then
    (0, [Diag.dowarnx "bad exit code: %s(%u)" [compname comp, toString pid]])
  else
    (1, [])

/-! ## Dropping privileges -/

/-- An identity-changing call with its arguments. -/
inductive IdCall
  | setgroups (gids : List Nat)
  | setresgid (r e s : Nat)
  | setresuid (r e s : Nat)
  | setegid (g : Nat)
  | setgid (g : Nat)
  | seteuid (u : Nat)
  | setuid (u : Nat)
deriving DecidableEq, Repr

namespace IdCall

/-- The calls that change a group identity. -/
def isGroup : IdCall → Bool
  | setgroups _ => true
  | setresgid _ _ _ => true
  | setegid _ => true
  | setgid _ => true
  | _ => false

/-- The calls that change a user identity. -/
def isUser : IdCall → Bool
  | setresuid _ _ _ => true
  | seteuid _ => true
  | setuid _ => true
  | _ => false

end IdCall

/-- The kernel as seen by `dropprivs`: each identity-changing call is an
arbitrary function of the kernel state (it may fail, or report success and
change nothing); the four queries read the live identity. -/
structure IdKernel (κ : Type) where
  call : IdCall → κ → Int × κ
  getgid : κ → Nat
  getegid : κ → Nat
  getuid : κ → Nat
  geteuid : κ → Nat

/-- The two build configurations of `dropprivs`. -/
inductive Platform
  | openbsd
  | other
deriving DecidableEq, Repr

/-- State threaded through `dropprivs`: the kernel state, the identity-changing
calls issued so far with their return values, and the diagnostics. -/
structure IdProc (κ : Type) where
  kern : κ
  calls : List (IdCall × Int)
  diags : List Diag

/-- Issue one identity-changing call. -/
def sysId {κ : Type} (K : IdKernel κ) (c : IdCall) (p : IdProc κ) : Int × IdProc κ :=
  ((K.call c p.kern).1,
   { kern := (K.call c p.kern).2, calls := p.calls ++ [(c, (K.call c p.kern).1)],
     diags := p.diags })

/-- The condition of the first `if` of `dropprivs`: the short-circuit `||`
chain of the configuration, true when some call returned non-zero. -/
def dropChain {κ : Type} (K : IdKernel κ) (plat : Platform) (uid gid : Nat) (p : IdProc κ) :
    Bool × IdProc κ :=
  match plat with
  | .openbsd =>
    let a := sysId K (.setgroups [gid]) p
    if a.1 ≠ 0 then (true, a.2) else
    let b := sysId K (.setresgid gid gid gid) a.2
    if b.1 ≠ 0 then (true, b.2) else
    let c := sysId K (.setresuid uid uid uid) b.2
    if c.1 ≠ 0 then (true, c.2) else (false, c.2)
  | .other =>
    let a := sysId K (.setgroups [gid]) p
    if a.1 ≠ 0 then (true, a.2) else
    let b := sysId K (.setegid gid) a.2
    if b.1 ≠ 0 then (true, b.2) else
    let c := sysId K (.setgid gid) b.2
    if c.1 ≠ 0 then (true, c.2) else
    let d := sysId K (.seteuid uid) c.2
    if d.1 ≠ 0 then (true, d.2) else
    let e := sysId K (.setuid uid) d.2
    if e.1 ≠ 0 then (true, e.2) else (false, e.2)

/-- Function `int dropprivs(uid_t uid, gid_t gid)`, started in kernel state `k`. -/
def dropprivs {κ : Type} (K : IdKernel κ) (plat : Platform) (uid gid : Nat) (k : κ) :
    Int × IdProc κ :=
  let s := dropChain K plat uid gid { kern := k, calls := [], diags := [] }
  if s.1 then
    (0, { s.2 with diags := s.2.diags ++ [Diag.dowarn "drop privileges" []] })
  else if K.getgid s.2.kern ≠ gid ∨ K.getegid s.2.kern ≠ gid then
    (0, { s.2 with diags := s.2.diags ++ [Diag.dowarnx "failed to drop gid" []] })
  else if K.getuid s.2.kern ≠ uid ∨ K.geteuid s.2.kern ≠ uid then
    (0, { s.2 with diags := s.2.diags ++ [Diag.dowarnx "failed to drop uid" []] })
  else
    (1, s.2)

/-- The fixed order of identity-changing calls of each configuration. -/
def idSequence (plat : Platform) (uid gid : Nat) : List IdCall :=
  match plat with
  | .openbsd => [.setgroups [gid], .setresgid gid gid gid, .setresuid uid uid uid]
  | .other => [.setgroups [gid], .setegid gid, .setgid gid, .seteuid uid, .setuid uid]

/-- Credentials of a process: real, effective and saved ids, supplementary groups. -/
structure Cred where
  ruid : Nat
  euid : Nat
  suid : Nat
  rgid : Nat
  egid : Nat
  sgid : Nat
  groups : List Nat
deriving DecidableEq, Repr

/-- A kernel that carries out every identity-changing call (the caller is
privileged). -/
def obedient : IdKernel Cred where
  call := fun c k =>
    match c with
    | .setgroups gs => (0, { k with groups := gs })
    | .setresgid r e s => (0, { k with rgid := r, egid := e, sgid := s })
    | .setresuid r e s => (0, { k with ruid := r, euid := e, suid := s })
    | .setegid g => (0, { k with egid := g })
    | .setgid g => (0, { k with rgid := g, egid := g, sgid := g })
    | .seteuid u => (0, { k with euid := u })
    | .setuid u => (0, { k with ruid := u, euid := u, suid := u })
  getgid := fun k => k.rgid
  getegid := fun k => k.egid
  getuid := fun k => k.ruid
  geteuid := fun k => k.euid

/-- A kernel like `obedient` whose `setuid` and `setresuid` report success but
leave the real user id as it was. -/
def silent : IdKernel Cred where
  call := fun c k =>
    match c with
    | .setresuid _ e s => (0, { k with euid := e, suid := s })
    | .setuid u => (0, { k with euid := u, suid := u })
    | c => obedient.call c k
  getgid := fun k => k.rgid
  getegid := fun k => k.egid
  getuid := fun k => k.ruid
  geteuid := fun k => k.euid

/-- A kernel like `obedient` on which the one call `bad` fails. -/
def refusing (bad : IdCall) : IdKernel Cred where
  call := fun c k => if c = bad then (-1, k) else obedient.call c k
  getgid := fun k => k.rgid
  getegid := fun k => k.egid
  getuid := fun k => k.ruid
  geteuid := fun k => k.euid

/-- A root process. -/
def rootCred : Cred :=
  { ruid := 0, euid := 0, suid := 0, rgid := 0, egid := 0, sgid := 0, groups := [0] }

/-! ### Facts about the representations -/

theorem length_leBytes (w n : Nat) : (leBytes w n).length = w := by
  induction w generalizing n with
  | zero => rfl
  | succ w ih => simp [leBytes, ih]

theorem leValue_leBytes (w n : Nat) : leValue (leBytes w n) = n % 256 ^ w := by
  induction w generalizing n with
  | zero => simp [leBytes, leValue, Nat.mod_one]
  | succ w ih =>
    simp only [leBytes, leValue, ih]
    rw [pow_succ, Nat.mul_comm (256 ^ w) 256, Nat.mod_mul]

theorem leValue_lt (bs : List Byte) : leValue bs < 256 ^ bs.length := by
  induction bs with
  | nil => simp [leValue]
  | cons b bs ih =>
    simp only [leValue, List.length_cons, pow_succ]
    have := b.isLt
    omega

namespace ABI

theorem order_order (abi : ABI) (bs : List Byte) : abi.order (abi.order bs) = bs := by
  unfold order; split <;> simp

theorem length_order (abi : ABI) (bs : List Byte) : (abi.order bs).length = bs.length := by
  unfold order; split <;> simp

theorem sizeMod_pos (abi : ABI) : 0 < abi.sizeMod := by
  unfold sizeMod; positivity

theorem longMod_pos (abi : ABI) : 0 < abi.longMod := by
  unfold longMod; positivity

theorem sizeMod_even (abi : ABI) : abi.sizeMod = 2 * (abi.sizeMod / 2) := by
  unfold sizeMod
  obtain ⟨k, hk⟩ := Nat.exists_eq_succ_of_ne_zero (Nat.pos_iff_ne_zero.mp abi.sizeBytes_pos)
  rw [hk, pow_succ]; omega

theorem longMod_even (abi : ABI) : abi.longMod = 2 * (abi.longMod / 2) := by
  unfold longMod
  obtain ⟨k, hk⟩ := Nat.exists_eq_succ_of_ne_zero (Nat.pos_iff_ne_zero.mp abi.longBytes_pos)
  rw [hk, pow_succ]; omega

theorem longMod_ge (abi : ABI) : 256 ≤ abi.longMod := by
  unfold longMod
  calc 256 = 256 ^ 1 := by norm_num
    _ ≤ 256 ^ abi.longBytes := Nat.pow_le_pow_right (by decide) abi.longBytes_pos

theorem sizeBytes_fit (abi : ABI) : abi.sizeBytes < abi.sizeMod / 2 := by
  have h1 : abi.sizeBytes < 2 ^ abi.sizeBytes := Nat.lt_two_pow abi.sizeBytes
  have h2 : 2 * 2 ^ abi.sizeBytes ≤ 256 ^ abi.sizeBytes := by
    obtain ⟨k, hk⟩ := Nat.exists_eq_succ_of_ne_zero (Nat.pos_iff_ne_zero.mp abi.sizeBytes_pos)
    rw [hk, pow_succ, pow_succ]
    have : 2 ^ k ≤ 256 ^ k := Nat.pow_le_pow_left (by decide) k
    omega
  unfold sizeMod; omega

theorem length_bytesOfSize (abi : ABI) (n : Nat) :
    (abi.bytesOfSize n).length = abi.sizeBytes := by
  simp [bytesOfSize, length_order, length_leBytes]

theorem length_bytesOfLong (abi : ABI) (v : Int) :
    (abi.bytesOfLong v).length = abi.longBytes := by
  simp [bytesOfLong, length_order, length_leBytes]

theorem sizeOfBytes_bytesOfSize (abi : ABI) (n : Nat) :
    abi.sizeOfBytes (abi.bytesOfSize n) = abi.wrapSize n := by
  simp [sizeOfBytes, bytesOfSize, order_order, leValue_leBytes, wrapSize, sizeMod]

theorem sizeOfBytes_lt (abi : ABI) (bs : List Byte) (h : bs.length = abi.sizeBytes) :
    abi.sizeOfBytes bs < abi.sizeMod := by
  have := leValue_lt (abi.order bs)
  rw [length_order, h] at this
  exact this

theorem toSsize_of_le (abi : ABI) (n : Nat) (h : n ≤ abi.SSIZE_MAX) :
    abi.toSsize n = (n : Int) := by
  have he := abi.sizeMod_even
  have hf := abi.sizeBytes_fit
  unfold SSIZE_MAX at h
  have hlt : n < abi.sizeMod := by omega
  unfold toSsize
  rw [Nat.mod_eq_of_lt hlt, if_pos (by omega)]

theorem toSsize_neg_of_gt (abi : ABI) (n : Nat) (h1 : abi.SSIZE_MAX < n)
    (h2 : n ≤ abi.SIZE_MAX) : abi.toSsize n < 0 := by
  have he := abi.sizeMod_even
  have hp := abi.sizeMod_pos
  unfold SSIZE_MAX at h1
  unfold SIZE_MAX at h2
  have hlt : n < abi.sizeMod := by omega
  unfold toSsize
  rw [Nat.mod_eq_of_lt hlt, if_neg (by omega)]
  omega

theorem toSsize_range (abi : ABI) (n : Nat) :
    -((abi.sizeMod / 2 : Nat) : Int) ≤ abi.toSsize n ∧
      abi.toSsize n < ((abi.sizeMod / 2 : Nat) : Int) := by
  have he := abi.sizeMod_even
  have hp := abi.sizeMod_pos
  have hm := Nat.mod_lt n hp
  unfold toSsize
  split <;> constructor <;> omega

theorem toSizeT_of_nonneg (abi : ABI) (x : Int) (h0 : 0 ≤ x)
    (h1 : x < ((abi.sizeMod / 2 : Nat) : Int)) : ((abi.toSizeT x : Nat) : Int) = x := by
  have he := abi.sizeMod_even
  unfold toSizeT
  have hx : x % (abi.sizeMod : Int) = x := Int.emod_eq_of_lt h0 (by omega)
  rw [hx]
  exact Int.toNat_of_nonneg h0

end ABI



/-! ### Scalar reads -/

namespace ABI

theorem longOfBytes_bytesOfLong (abi : ABI) (v : Int) (h1 : abi.LONG_MIN ≤ v)
    (h2 : v ≤ abi.LONG_MAX) : abi.longOfBytes (abi.bytesOfLong v) = v := by
  have he := abi.longMod_even
  have hp := abi.longMod_pos
  unfold LONG_MIN at h1
  unfold LONG_MAX at h2
  have hval : leValue (abi.order (abi.bytesOfLong v)) % abi.longMod
      = (v % (abi.longMod : Int)).toNat := by
    have hnn : 0 ≤ v % (abi.longMod : Int) := Int.emod_nonneg _ (by omega)
    have hlt : v % (abi.longMod : Int) < abi.longMod := Int.emod_lt_of_pos _ (by omega)
    simp only [bytesOfLong, order_order, leValue_leBytes]
    have : (v % (abi.longMod : Int)).toNat < abi.longMod := by omega
    unfold longMod at this ⊢
    rw [Nat.mod_mod, Nat.mod_eq_of_lt this]
  unfold longOfBytes
  rw [hval]
  by_cases hv : 0 ≤ v
  · have hm : v % (abi.longMod : Int) = v := Int.emod_eq_of_lt hv (by omega)
    rw [hm]
    have : v.toNat < abi.longMod / 2 := by omega
    rw [if_pos this]
    exact Int.toNat_of_nonneg hv
  · have hm : v % (abi.longMod : Int) = v + abi.longMod := by
      have h := Int.add_mul_emod_self (a := v) (b := 1) (c := (abi.longMod : Int))
      rw [one_mul] at h
      rw [← h]
      exact Int.emod_eq_of_lt (by omega) (by omega)
    rw [hm]
    have : ¬ (v + (abi.longMod : Int)).toNat < abi.longMod / 2 := by omega
    rw [if_neg this]
    have : ((v + (abi.longMod : Int)).toNat : Int) = v + abi.longMod :=
      Int.toNat_of_nonneg (by omega)
    omega

theorem LONG_MAX_pos (abi : ABI) : 0 < abi.LONG_MAX := by
  have := abi.longMod_ge
  unfold LONG_MAX
  omega

theorem longBytes_le_SSIZE_MAX (abi : ABI) : abi.longBytes ≤ abi.SSIZE_MAX := by
  have := abi.longBytes_fit
  unfold SSIZE_MAX sizeMod
  omega

theorem sizeBytes_le_SSIZE_MAX (abi : ABI) : abi.sizeBytes ≤ abi.SSIZE_MAX := by
  have := abi.sizeBytes_fit
  unfold SSIZE_MAX
  omega

/-- A count within `SSIZE_MAX` survives the trip through `ssize_t` and back. -/
theorem toSizeT_toSsize_of_le (abi : ABI) (n : Nat) (h : n ≤ abi.SSIZE_MAX) :
    abi.toSizeT (abi.toSsize n) = n := by
  have he := abi.sizeMod_even
  have hf := abi.sizeBytes_fit
  have h' := h
  unfold SSIZE_MAX at h'
  have := abi.toSizeT_of_nonneg (abi.toSsize n)
    (by rw [abi.toSsize_of_le n h]; omega) (by rw [abi.toSsize_of_le n h]; omega)
  rw [abi.toSsize_of_le n h] at this ⊢
  exact_mod_cast this

end ABI

theorem readop_of_error {κ : Type} (abi : ABI) (K : Kernel κ) (fd : Int) (c : comm)
    (p : Proc κ) (h : (K.read fd abi.longBytes p.kern).1 = ReadOutcome.error) :
    (readop abi K fd c p).1 = abi.LONG_MAX := by
  simp [readop, sysRead, h, ReadOutcome.clip, ReadOutcome.ret]

theorem readop_of_data {κ : Type} (abi : ABI) (K : Kernel κ) (fd : Int) (c : comm)
    (p : Proc κ) (bs : List Byte)
    (h : (K.read fd abi.longBytes p.kern).1 = ReadOutcome.data bs) :
    (readop abi K fd c p).1 =
      if bs.length = 0 then 0
      else if abi.longBytes ≤ bs.length then abi.longOfBytes (bs.take abi.longBytes)
      else abi.LONG_MAX := by
  have hfit := abi.longBytes_le_SSIZE_MAX
  have hpos := abi.longBytes_pos
  have hlen : (bs.take abi.longBytes).length ≤ abi.SSIZE_MAX := by
    rw [List.length_take]; omega
  have hs := abi.toSsize_of_le _ hlen
  have hz := abi.toSizeT_toSsize_of_le _ hlen
  simp only [readop, sysRead, h, ReadOutcome.clip, ReadOutcome.ret, ReadOutcome.stored]
  rw [hz, hs]
  have hm : (bs.take abi.longBytes).length = min abi.longBytes bs.length := List.length_take _ _
  generalize (bs.take abi.longBytes).length = m at hm
  split_ifs <;> first | rfl | (exfalso; omega)

theorem readop_of_eof {κ : Type} (abi : ABI) (K : Kernel κ) (fd : Int) (c : comm)
    (p : Proc κ) (bs : List Byte)
    (h : (K.read fd abi.longBytes p.kern).1 = ReadOutcome.data bs) (h0 : bs.length = 0) :
    (readop abi K fd c p).1 = 0 := by
  rw [readop_of_data abi K fd c p bs h, if_pos h0]

theorem readop_of_short {κ : Type} (abi : ABI) (K : Kernel κ) (fd : Int) (c : comm)
    (p : Proc κ) (bs : List Byte)
    (h : (K.read fd abi.longBytes p.kern).1 = ReadOutcome.data bs) (h0 : 0 < bs.length)
    (h1 : bs.length < abi.longBytes) : (readop abi K fd c p).1 = abi.LONG_MAX := by
  rw [readop_of_data abi K fd c p bs h, if_neg (by omega), if_neg (by omega)]

theorem readop_of_full {κ : Type} (abi : ABI) (K : Kernel κ) (fd : Int) (c : comm)
    (p : Proc κ) (bs : List Byte)
    (h : (K.read fd abi.longBytes p.kern).1 = ReadOutcome.data bs)
    (h1 : bs.length = abi.longBytes) : (readop abi K fd c p).1 = abi.longOfBytes bs := by
  have hpos := abi.longBytes_pos
  rw [readop_of_data abi K fd c p bs h, if_neg (by omega), if_pos (by omega), ← h1,
    List.take_length]

theorem readop_of_value {κ : Type} (abi : ABI) (K : Kernel κ) (fd : Int) (c : comm)
    (p : Proc κ) (v : Int) (h1 : abi.LONG_MIN ≤ v) (h2 : v ≤ abi.LONG_MAX)
    (h : (K.read fd abi.longBytes p.kern).1 = ReadOutcome.data (abi.bytesOfLong v)) :
    (readop abi K fd c p).1 = v := by
  rw [readop_of_full abi K fd c p _ h (abi.length_bytesOfLong v)]
  exact abi.longOfBytes_bytesOfLong v h1 h2

/-! ### Steps of the process state -/

@[simp] theorem signal_fst {κ : Type} (h : Handler) (p : Proc κ) : (signal h p).1 = p.disp := rfl

@[simp] theorem signal_kern {κ : Type} (h : Handler) (p : Proc κ) :
    (signal h p).2.kern = p.kern := rfl

@[simp] theorem signal_disp {κ : Type} (h : Handler) (p : Proc κ) :
    (signal h p).2.disp = h := rfl

@[simp] theorem signal_trace {κ : Type} (h : Handler) (p : Proc κ) :
    (signal h p).2.trace = p.trace ++ [Event.signal h p.disp] := rfl

@[simp] theorem dowarn_kern {κ : Type} (f : String) (a : List String) (p : Proc κ) :
    (dowarn f a p).kern = p.kern := rfl

@[simp] theorem dowarn_disp {κ : Type} (f : String) (a : List String) (p : Proc κ) :
    (dowarn f a p).disp = p.disp := rfl

@[simp] theorem dowarn_trace {κ : Type} (f : String) (a : List String) (p : Proc κ) :
    (dowarn f a p).trace = p.trace ++ [Event.diag (Diag.dowarn f a)] := rfl

@[simp] theorem dowarnx_kern {κ : Type} (f : String) (a : List String) (p : Proc κ) :
    (dowarnx f a p).kern = p.kern := rfl

@[simp] theorem dowarnx_disp {κ : Type} (f : String) (a : List String) (p : Proc κ) :
    (dowarnx f a p).disp = p.disp := rfl

@[simp] theorem dowarnx_trace {κ : Type} (f : String) (a : List String) (p : Proc κ) :
    (dowarnx f a p).trace = p.trace ++ [Event.diag (Diag.dowarnx f a)] := rfl

@[simp] theorem deliver_kern {κ : Type} (p : Proc κ) : (deliver p).kern = p.kern := by
  unfold deliver; split <;> rfl

@[simp] theorem deliver_disp {κ : Type} (p : Proc κ) : (deliver p).disp = p.disp := by
  unfold deliver; split <;> rfl

@[simp] theorem deliver_trace {κ : Type} (p : Proc κ) : (deliver p).trace = p.trace := by
  unfold deliver; split <;> rfl

@[simp] theorem sysWrite_fst {κ : Type} (K : Kernel κ) (fd : Int) (buf : List Byte) (n : Nat)
    (p : Proc κ) : (sysWrite K fd buf n p).1 = (K.write fd buf n p.kern).1 := rfl

@[simp] theorem sysWrite_kern {κ : Type} (K : Kernel κ) (fd : Int) (buf : List Byte) (n : Nat)
    (p : Proc κ) : (sysWrite K fd buf n p).2.kern = (K.write fd buf n p.kern).2 := by
  unfold sysWrite; dsimp only; split <;> simp

@[simp] theorem sysWrite_disp {κ : Type} (K : Kernel κ) (fd : Int) (buf : List Byte) (n : Nat)
    (p : Proc κ) : (sysWrite K fd buf n p).2.disp = p.disp := by
  unfold sysWrite; dsimp only; split <;> simp

@[simp] theorem sysWrite_trace {κ : Type} (K : Kernel κ) (fd : Int) (buf : List Byte) (n : Nat)
    (p : Proc κ) : (sysWrite K fd buf n p).2.trace
      = p.trace ++ [Event.write fd buf n p.disp (K.write fd buf n p.kern).1] := by
  unfold sysWrite; dsimp only; split <;> simp

@[simp] theorem sysRead_fst {κ : Type} (K : Kernel κ) (fd : Int) (n : Nat) (p : Proc κ) :
    (sysRead K fd n p).1 = (K.read fd n p.kern).1.clip n := rfl

@[simp] theorem sysRead_kern {κ : Type} (K : Kernel κ) (fd : Int) (n : Nat) (p : Proc κ) :
    (sysRead K fd n p).2.kern = (K.read fd n p.kern).2 := rfl

@[simp] theorem sysRead_trace {κ : Type} (K : Kernel κ) (fd : Int) (n : Nat) (p : Proc κ) :
    (sysRead K fd n p).2.trace
      = p.trace ++ [Event.read fd n ((K.read fd n p.kern).1.clip n)] := rfl

@[simp] theorem sysCalloc_fst {κ : Type} (K : Kernel κ) (a b : Nat) (p : Proc κ) :
    (sysCalloc K a b p).1 = (K.calloc a b p.kern).1 := rfl

@[simp] theorem sysCalloc_kern {κ : Type} (K : Kernel κ) (a b : Nat) (p : Proc κ) :
    (sysCalloc K a b p).2.kern = (K.calloc a b p.kern).2 := rfl

@[simp] theorem sysCalloc_trace {κ : Type} (K : Kernel κ) (a b : Nat) (p : Proc κ) :
    (sysCalloc K a b p).2.trace
      = p.trace ++ [Event.calloc a b (K.calloc a b p.kern).1] := rfl

/-! ### Return values of the system calls -/

theorem WriteOutcome.ret_range (abi : ABI) (r : WriteOutcome) :
    -((abi.sizeMod / 2 : Nat) : Int) ≤ r.ret abi ∧ r.ret abi < ((abi.sizeMod / 2 : Nat) : Int) := by
  cases r with
  | error e =>
    have := abi.sizeBytes_fit
    simp only [WriteOutcome.ret]
    omega
  | count k => exact abi.toSsize_range k

/-- The two tests `ssz < 0` and `(size_t)ssz != n` both pass exactly when the
call returned `n`. -/
theorem accept_iff (abi : ABI) (x : Int) (n : Nat)
    (hx : -((abi.sizeMod / 2 : Nat) : Int) ≤ x ∧ x < ((abi.sizeMod / 2 : Nat) : Int)) :
    (¬ x < 0 ∧ abi.toSizeT x = n) ↔ x = (n : Int) := by
  constructor
  · rintro ⟨h0, h1⟩
    have := abi.toSizeT_of_nonneg x (by omega) hx.2
    rw [h1] at this
    exact this.symm
  · intro h
    have h0 : 0 ≤ x := by omega
    have := abi.toSizeT_of_nonneg x h0 hx.2
    refine ⟨by omega, ?_⟩
    rw [h] at this ⊢
    exact_mod_cast this

/-! ### Scalar and buffer writes -/

theorem writeop_rc {κ : Type} (abi : ABI) (K : Kernel κ) (fd : Int) (c : comm) (op : Int)
    (p : Proc κ) :
    (writeop abi K fd c op p).1 =
      if (K.write fd (abi.bytesOfLong op) abi.longBytes p.kern).1.ret abi = abi.longBytes
      then 1 else 0 := by
  have hr := WriteOutcome.ret_range abi (K.write fd (abi.bytesOfLong op) abi.longBytes p.kern).1
  have ha := accept_iff abi _ abi.longBytes hr
  simp only [writeop, sysWrite_fst, signal_kern]
  split_ifs <;> first | rfl | (exfalso; tauto)

theorem writeop_disp {κ : Type} (abi : ABI) (K : Kernel κ) (fd : Int) (c : comm) (op : Int)
    (p : Proc κ) : (writeop abi K fd c op p).2.disp = p.disp := by
  simp [writeop]

theorem writeop_writes {κ : Type} (abi : ABI) (K : Kernel κ) (fd : Int) (c : comm) (op : Int)
    (p : Proc κ) :
    (writeop abi K fd c op p).2.trace.filter Event.isWrite
      = p.trace.filter Event.isWrite ++
        [Event.write fd (abi.bytesOfLong op) abi.longBytes Handler.sigpipe
          (K.write fd (abi.bytesOfLong op) abi.longBytes p.kern).1] := by
  simp only [writeop]
  split_ifs <;> simp [Event.isWrite]

theorem writebuf_rc {κ : Type} (abi : ABI) (K : Kernel κ) (fd : Int) (c : comm)
    (v : List Byte) (sz : Nat) (p : Proc κ) :
    (writebuf abi K fd c v sz p).1 =
      if (K.write fd (abi.bytesOfSize (abi.wrapSize sz)) abi.sizeBytes p.kern).1.ret abi
            = abi.sizeBytes ∧
          (K.write fd (v.take (abi.wrapSize sz)) (abi.wrapSize sz)
            (K.write fd (abi.bytesOfSize (abi.wrapSize sz)) abi.sizeBytes p.kern).2).1.ret abi
            = (abi.wrapSize sz : Int)
      then 1 else 0 := by
  have hr1 := WriteOutcome.ret_range abi
    (K.write fd (abi.bytesOfSize (abi.wrapSize sz)) abi.sizeBytes p.kern).1
  have ha1 := accept_iff abi _ abi.sizeBytes hr1
  have hr2 := WriteOutcome.ret_range abi
    (K.write fd (v.take (abi.wrapSize sz)) (abi.wrapSize sz)
      (K.write fd (abi.bytesOfSize (abi.wrapSize sz)) abi.sizeBytes p.kern).2).1
  have ha2 := accept_iff abi _ (abi.wrapSize sz) hr2
  simp only [writebuf, sysWrite_fst, sysWrite_kern, signal_kern]
  split_ifs <;> first | rfl | (exfalso; tauto)

theorem writebuf_disp {κ : Type} (abi : ABI) (K : Kernel κ) (fd : Int) (c : comm)
    (v : List Byte) (sz : Nat) (p : Proc κ) : (writebuf abi K fd c v sz p).2.disp = p.disp := by
  simp [writebuf]

theorem writebuf_writes_of_length_failed {κ : Type} (abi : ABI) (K : Kernel κ) (fd : Int)
    (c : comm) (v : List Byte) (sz : Nat) (p : Proc κ)
    (h : (K.write fd (abi.bytesOfSize (abi.wrapSize sz)) abi.sizeBytes p.kern).1.ret abi
      ≠ abi.sizeBytes) :
    (writebuf abi K fd c v sz p).2.trace.filter Event.isWrite
      = p.trace.filter Event.isWrite ++
        [Event.write fd (abi.bytesOfSize (abi.wrapSize sz)) abi.sizeBytes Handler.sigpipe
          (K.write fd (abi.bytesOfSize (abi.wrapSize sz)) abi.sizeBytes p.kern).1] := by
  have hr1 := WriteOutcome.ret_range abi
    (K.write fd (abi.bytesOfSize (abi.wrapSize sz)) abi.sizeBytes p.kern).1
  have ha1 := accept_iff abi _ abi.sizeBytes hr1
  simp only [writebuf, sysWrite_fst, sysWrite_kern, signal_kern]
  split_ifs <;> first | (exfalso; tauto) | simp [Event.isWrite]

theorem writeop_trace_ends {κ : Type} (abi : ABI) (K : Kernel κ) (fd : Int) (c : comm)
    (op : Int) (k : κ) (h : Handler) (s : Int) :
    (writeop abi K fd c op (Proc.start k h s)).2.trace.head? = some (Event.signal Handler.sigpipe h) ∧
    (writeop abi K fd c op (Proc.start k h s)).2.trace.getLast?
      = some (Event.signal h Handler.sigpipe) := by
  simp only [writeop]
  split_ifs <;> simp [Proc.start]

theorem writebuf_trace_ends {κ : Type} (abi : ABI) (K : Kernel κ) (fd : Int) (c : comm)
    (v : List Byte) (sz : Nat) (k : κ) (h : Handler) (s : Int) :
    (writebuf abi K fd c v sz (Proc.start k h s)).2.trace.head?
      = some (Event.signal Handler.sigpipe h) ∧
    (writebuf abi K fd c v sz (Proc.start k h s)).2.trace.getLast?
      = some (Event.signal h Handler.sigpipe) := by
  simp only [writebuf]
  split_ifs <;> simp [Proc.start]

theorem writeop_write_disp {κ : Type} (abi : ABI) (K : Kernel κ) (fd : Int) (c : comm)
    (op : Int) (k : κ) (h : Handler) (s : Int) :
    ∀ e ∈ (writeop abi K fd c op (Proc.start k h s)).2.trace,
      e.isWrite = true → e.writeDisp = some Handler.sigpipe := by
  simp only [writeop]
  split_ifs <;> simp [Proc.start, Event.isWrite, Event.writeDisp]

theorem writebuf_write_disp {κ : Type} (abi : ABI) (K : Kernel κ) (fd : Int) (c : comm)
    (v : List Byte) (sz : Nat) (k : κ) (h : Handler) (s : Int) :
    ∀ e ∈ (writebuf abi K fd c v sz (Proc.start k h s)).2.trace,
      e.isWrite = true → e.writeDisp = some Handler.sigpipe := by
  simp only [writebuf]
  split_ifs <;> simp [Proc.start, Event.isWrite, Event.writeDisp]

/-! ### Wait statuses -/

theorem WIFEXITED_exited (code : Fin 256) : WIFEXITED (ChildEnd.exited code).wstatus = true := by
  simp only [ChildEnd.wstatus, WIFEXITED, WTERMSIG, beq_iff_eq]
  omega

theorem WEXITSTATUS_exited (code : Fin 256) :
    WEXITSTATUS (ChildEnd.exited code).wstatus = code.val := by
  have := code.isLt
  simp only [ChildEnd.wstatus, WEXITSTATUS]
  omega

theorem WIFEXITED_signaled (sig : Fin 126) (core : Bool) :
    WIFEXITED (ChildEnd.signaled sig core).wstatus = false := by
  have := sig.isLt
  cases core <;> simp [ChildEnd.wstatus, WIFEXITED, WTERMSIG] <;> omega

theorem WIFEXITED_stopped (sig : Fin 256) :
    WIFEXITED (ChildEnd.stopped sig).wstatus = false := by
  simp [ChildEnd.wstatus, WIFEXITED, WTERMSIG]
  omega

theorem checkexit_rc (waitpid : Int → Int × Nat) (compname : Nat → String)
    (sys_signame : Nat → String) (pid : Int) (comp : Nat) :
    (checkexit waitpid compname sys_signame pid comp).1 =
      if (waitpid pid).1 ≠ -1 ∧ WIFEXITED (waitpid pid).2 = true ∧
          WEXITSTATUS (waitpid pid).2 = 0
      then 1 else 0 := by
  simp only [checkexit, EXIT_SUCCESS]
  by_cases h1 : -1 = (waitpid pid).1
  · rw [if_pos h1, if_neg (by intro h; exact h.1 h1.symm)]
  · rw [if_neg h1]
    by_cases h2 : WIFEXITED (waitpid pid).2 = true
    · rw [if_neg (by simp [h2])]
      by_cases h3 : WEXITSTATUS (waitpid pid).2 = 0
      · rw [if_neg (by simp [h3]), if_pos ⟨fun h => h1 h.symm, h2, h3⟩]
      · rw [if_pos (by intro h; exact h3 h.symm), if_neg (by intro h; exact h3 h.2.2)]
    · have hneg : ¬ ((waitpid pid).1 ≠ -1 ∧ WIFEXITED (waitpid pid).2 = true ∧
          WEXITSTATUS (waitpid pid).2 = 0) := fun h => h2 h.2.1
      rw [if_neg hneg]
      simp only [if_pos h2]

/-! ### Privilege drop -/

theorem dropprivs_kern {κ : Type} (K : IdKernel κ) (plat : Platform) (uid gid : Nat) (k : κ) :
    (dropprivs K plat uid gid k).2.kern
      = (dropChain K plat uid gid { kern := k, calls := [], diags := [] }).2.kern := by
  simp only [dropprivs]
  split_ifs <;> rfl

theorem dropprivs_calls {κ : Type} (K : IdKernel κ) (plat : Platform) (uid gid : Nat) (k : κ) :
    (dropprivs K plat uid gid k).2.calls
      = (dropChain K plat uid gid { kern := k, calls := [], diags := [] }).2.calls := by
  simp only [dropprivs]
  split_ifs <;> rfl

theorem dropprivs_rc {κ : Type} (K : IdKernel κ) (plat : Platform) (uid gid : Nat) (k : κ) :
    (dropprivs K plat uid gid k).1 =
      if (dropChain K plat uid gid { kern := k, calls := [], diags := [] }).1 = false ∧
          K.getgid (dropprivs K plat uid gid k).2.kern = gid ∧
          K.getegid (dropprivs K plat uid gid k).2.kern = gid ∧
          K.getuid (dropprivs K plat uid gid k).2.kern = uid ∧
          K.geteuid (dropprivs K plat uid gid k).2.kern = uid
      then 1 else 0 := by
  rw [dropprivs_kern]
  simp only [dropprivs]
  split_ifs <;> first | rfl | (exfalso; simp_all)

/-- The calls of the chain, their results, and its value, case by case. -/
theorem dropChain_shape {κ : Type} (K : IdKernel κ) (plat : Platform) (uid gid : Nat)
    (k : κ) :
    0 < (dropChain K plat uid gid { kern := k, calls := [], diags := [] }).2.calls.length ∧
    (dropChain K plat uid gid { kern := k, calls := [], diags := [] }).2.calls.map Prod.fst
      = (idSequence plat uid gid).take
          (dropChain K plat uid gid { kern := k, calls := [], diags := [] }).2.calls.length ∧
    (∀ e ∈ (dropChain K plat uid gid { kern := k, calls := [], diags := [] }).2.calls.dropLast,
      e.2 = 0) ∧
    ((dropChain K plat uid gid { kern := k, calls := [], diags := [] }).1 = true ↔
      ∃ e ∈ (dropChain K plat uid gid { kern := k, calls := [], diags := [] }).2.calls,
        e.2 ≠ 0) ∧
    ((dropChain K plat uid gid { kern := k, calls := [], diags := [] }).1 = false →
      (dropChain K plat uid gid { kern := k, calls := [], diags := [] }).2.calls.map Prod.fst
        = idSequence plat uid gid) := by
  cases plat
  · simp only [dropChain, sysId]
    split_ifs <;> simp_all [idSequence]
  · simp only [dropChain, sysId]
    split_ifs <;> simp_all [idSequence]

/-- A user-id change is only in the chain after every group change of the
sequence was issued and returned zero. -/
theorem dropChain_group_first {κ : Type} (K : IdKernel κ) (plat : Platform) (uid gid : Nat)
    (k : κ) :
    ∀ e ∈ (dropChain K plat uid gid { kern := k, calls := [], diags := [] }).2.calls,
      e.1.isUser = true →
      ∀ g ∈ idSequence plat uid gid, g.isGroup = true →
        (g, (0 : Int)) ∈ (dropChain K plat uid gid { kern := k, calls := [], diags := [] }).2.calls := by
  cases plat
  · simp only [dropChain, sysId]
    split_ifs <;> simp_all [idSequence, IdCall.isUser, IdCall.isGroup]
  · simp only [dropChain, sysId]
    split_ifs <;> simp_all [idSequence, IdCall.isUser, IdCall.isGroup]

/-! ### Buffer reads -/

theorem overlay_length_ge (bs mem : List Byte) (n : Nat) (h : n ≤ bs.length) :
    (overlay bs mem).take n = bs.take n := by
  unfold overlay
  rw [List.take_append_of_le_length h]

/-- A count `m` of at most `n` bytes is reported as `n` exactly when it is `n`
and `n` fits in `ssize_t`. -/
theorem toSsize_eq_iff (abi : ABI) (m n : Nat) (hmn : m ≤ n) (hn : n ≤ abi.SIZE_MAX) :
    abi.toSsize m = (n : Int) ↔ m = n ∧ n ≤ abi.SSIZE_MAX := by
  by_cases hm : m ≤ abi.SSIZE_MAX
  · rw [abi.toSsize_of_le m hm]
    constructor
    · intro h
      have : m = n := by exact_mod_cast h
      exact ⟨this, this ▸ hm⟩
    · intro h
      rw [h.1]
  · have hneg := abi.toSsize_neg_of_gt m (by omega) (by omega)
    constructor
    · intro h; omega
    · intro h; omega

theorem readbuf_of_length_error {κ : Type} (abi : ABI) (K : Kernel κ) (fd : Int) (c : comm)
    (sz0 : Nat) (p : Proc κ) (h : (K.read fd abi.sizeBytes p.kern).1 = ReadOutcome.error) :
    (readbuf abi K fd c sz0 p).p = none := by
  simp [readbuf, h, ReadOutcome.clip, ReadOutcome.ret]

theorem readbuf_of_length_short {κ : Type} (abi : ABI) (K : Kernel κ) (fd : Int) (c : comm)
    (sz0 : Nat) (p : Proc κ) (bs : List Byte)
    (h : (K.read fd abi.sizeBytes p.kern).1 = ReadOutcome.data bs)
    (hlen : bs.length < abi.sizeBytes) :
    (readbuf abi K fd c sz0 p).p = none := by
  have hfit := abi.sizeBytes_le_SSIZE_MAX
  have hl : (bs.take abi.sizeBytes).length = bs.length := by
    rw [List.length_take]; omega
  have hs := abi.toSsize_of_le bs.length (by omega)
  have hz := abi.toSizeT_toSsize_of_le bs.length (by omega)
  rw [hs] at hz
  simp only [readbuf, sysRead_fst, h, ReadOutcome.clip, ReadOutcome.ret, hl, hz, hs]
  rw [if_neg (by omega), if_pos (by omega)]

/-- After a complete length field the result of `readbuf` is decided by the
allocation and the payload read. -/
theorem readbuf_of_length_read {κ : Type} (abi : ABI) (K : Kernel κ) (fd : Int) (c : comm)
    (sz0 : Nat) (p : Proc κ) (bs : List Byte)
    (h : (K.read fd abi.sizeBytes p.kern).1 = ReadOutcome.data bs)
    (hlen : abi.sizeBytes ≤ bs.length) :
    (readbuf abi K fd c sz0 p).sz = abi.sizeOfBytes (bs.take abi.sizeBytes) ∧
    (readbuf abi K fd c sz0 p).p =
      if (K.calloc 1 (abi.wrapSize (abi.sizeOfBytes (bs.take abi.sizeBytes) + 1))
            (K.read fd abi.sizeBytes p.kern).2).1 = true then
        match (K.read fd (abi.sizeOfBytes (bs.take abi.sizeBytes))
            (K.calloc 1 (abi.wrapSize (abi.sizeOfBytes (bs.take abi.sizeBytes) + 1))
              (K.read fd abi.sizeBytes p.kern).2).2).1 with
        | ReadOutcome.error => none
        | ReadOutcome.data bs2 =>
          if abi.sizeOfBytes (bs.take abi.sizeBytes) ≤ bs2.length ∧
              abi.sizeOfBytes (bs.take abi.sizeBytes) ≤ abi.SSIZE_MAX then
            some (overlay (bs2.take (abi.sizeOfBytes (bs.take abi.sizeBytes)))
              (List.replicate
                (abi.wrapSize (abi.sizeOfBytes (bs.take abi.sizeBytes) + 1)) 0))
          else none
      else none := by
  have hfit := abi.sizeBytes_le_SSIZE_MAX
  have hl : (bs.take abi.sizeBytes).length = abi.sizeBytes := by
    rw [List.length_take]; omega
  have hov : (overlay (bs.take abi.sizeBytes) (abi.bytesOfSize sz0)).take abi.sizeBytes
      = bs.take abi.sizeBytes := by
    rw [overlay_length_ge _ _ _ (by omega), List.take_take, min_self]
  have hs := abi.toSsize_of_le abi.sizeBytes hfit
  have hz := abi.toSizeT_toSsize_of_le abi.sizeBytes hfit
  rw [hs] at hz
  have hlt : abi.sizeOfBytes (bs.take abi.sizeBytes) ≤ abi.SIZE_MAX := by
    have := abi.sizeOfBytes_lt (bs.take abi.sizeBytes) hl
    unfold ABI.SIZE_MAX; omega
  generalize hS : abi.sizeOfBytes (bs.take abi.sizeBytes) = S at hlt
  simp only [readbuf, sysRead_fst, sysRead_kern, sysCalloc_fst, sysCalloc_kern, h,
    ReadOutcome.clip, ReadOutcome.ret, ReadOutcome.stored, hl, hov, hz, hs, hS]
  rw [if_neg (by omega), if_neg (by simp)]
  cases hc : (K.calloc 1 (abi.wrapSize (S + 1)) (K.read fd abi.sizeBytes p.kern).2).1
  · simp
  · simp only [Bool.true_eq_false, if_false, if_true]
    cases hr : (K.read fd S
        (K.calloc 1 (abi.wrapSize (S + 1)) (K.read fd abi.sizeBytes p.kern).2).2).1 with
    | error => simp [ReadOutcome.clip, ReadOutcome.ret, ReadOutcome.stored]
    | data bs2 =>
      simp only [ReadOutcome.clip, ReadOutcome.ret, ReadOutcome.stored]
      have hr2 := abi.toSsize_range (bs2.take S).length
      have hacc := accept_iff abi (abi.toSsize (bs2.take S).length) S hr2
      have hm : (bs2.take S).length ≤ S := by rw [List.length_take]; omega
      have heq := toSsize_eq_iff abi (bs2.take S).length S hm hlt
      have hlen2 : (bs2.take S).length = S ↔ S ≤ bs2.length := by
        rw [List.length_take]; omega
      by_cases hcond : S ≤ bs2.length ∧ S ≤ abi.SSIZE_MAX
      · have hts := heq.mpr ⟨hlen2.mpr hcond.1, hcond.2⟩
        have ha := hacc.mpr hts
        rw [if_pos hcond, if_neg ha.1, if_neg (not_not.mpr ha.2)]
        exact ⟨rfl, rfl⟩
      · have hts : ¬ abi.toSsize (bs2.take S).length = (S : Int) :=
          fun h => hcond ⟨hlen2.mp (heq.mp h).1, (heq.mp h).2⟩
        have ha : ¬ (¬ abi.toSsize (bs2.take S).length < 0 ∧
            abi.toSizeT (abi.toSsize (bs2.take S).length) = S) := fun h => hts (hacc.mp h)
        rw [if_neg hcond]
        by_cases hx : abi.toSsize (bs2.take S).length < 0
        · rw [if_pos hx]
          exact ⟨rfl, rfl⟩
        · rw [if_neg hx, if_pos (fun h => ha ⟨hx, h⟩)]
          exact ⟨rfl, rfl⟩

/-- Once the length field is read, `readbuf` asks `calloc` for one object of
`*sz + 1` bytes, the sum taken in `size_t`. -/
theorem readbuf_calloc_event {κ : Type} (abi : ABI) (K : Kernel κ) (fd : Int) (c : comm)
    (sz0 : Nat) (p : Proc κ) (bs : List Byte)
    (h : (K.read fd abi.sizeBytes p.kern).1 = ReadOutcome.data bs)
    (hlen : abi.sizeBytes ≤ bs.length) :
    Event.calloc 1 (abi.wrapSize (abi.sizeOfBytes (bs.take abi.sizeBytes) + 1))
        (K.calloc 1 (abi.wrapSize (abi.sizeOfBytes (bs.take abi.sizeBytes) + 1))
          (K.read fd abi.sizeBytes p.kern).2).1
      ∈ (readbuf abi K fd c sz0 p).proc.trace := by
  have hfit := abi.sizeBytes_le_SSIZE_MAX
  have hl : (bs.take abi.sizeBytes).length = abi.sizeBytes := by
    rw [List.length_take]; omega
  have hov : (overlay (bs.take abi.sizeBytes) (abi.bytesOfSize sz0)).take abi.sizeBytes
      = bs.take abi.sizeBytes := by
    rw [overlay_length_ge _ _ _ (by omega), List.take_take, min_self]
  have hs := abi.toSsize_of_le abi.sizeBytes hfit
  have hz := abi.toSizeT_toSsize_of_le abi.sizeBytes hfit
  rw [hs] at hz
  simp only [readbuf, sysRead_fst, sysRead_kern, sysCalloc_fst, sysCalloc_kern, h,
    ReadOutcome.clip, ReadOutcome.ret, ReadOutcome.stored, hl, hov, hz, hs]
  rw [if_neg (by omega), if_neg (by simp)]
  split_ifs <;> simp [sysFree, Proc.emit]

/-- The sum `*sz + 1` in `size_t`: the successor below `SIZE_MAX`, zero at `SIZE_MAX`. -/
theorem ABI.wrapSize_succ (abi : ABI) (n : Nat) (h : n ≤ abi.SIZE_MAX) :
    abi.wrapSize (n + 1) = if n = abi.SIZE_MAX then 0 else n + 1 := by
  have hp := abi.sizeMod_pos
  unfold ABI.SIZE_MAX at h ⊢
  unfold ABI.wrapSize
  split_ifs with he
  · have : n + 1 = abi.sizeMod := by omega
    rw [this, Nat.mod_self]
  · exact Nat.mod_eq_of_lt (by omega)

/-- A process running `writeop` or `writebuf` is not terminated by `SIGPIPE`. -/
theorem write_keeps_alive {κ : Type} (abi : ABI) (K : Kernel κ) (fd : Int) (c : comm)
    (op : Int) (v : List Byte) (sz : Nat) (k : κ) (h : Handler) (s : Int) :
    (writeop abi K fd c op (Proc.start k h s)).2.alive = true ∧
    (writebuf abi K fd c v sz (Proc.start k h s)).2.alive = true := by
  constructor
  · simp only [writeop, sysWrite, signal, deliver, sigpipe, dowarn, dowarnx, Proc.emit,
      Proc.start]
    split_ifs <;> rfl
  · simp only [writebuf, sysWrite, signal, deliver, sigpipe, dowarn, dowarnx, Proc.emit,
      Proc.start]
    split_ifs <;> rfl

/-! ### The FIFO channel -/

theorem ABI.wrapSize_of_le (abi : ABI) (n : Nat) (h : n ≤ abi.SIZE_MAX) :
    abi.wrapSize n = n := by
  have := abi.sizeMod_pos
  unfold ABI.SIZE_MAX at h
  unfold ABI.wrapSize
  exact Nat.mod_eq_of_lt (by omega)

theorem ABI.SSIZE_MAX_lt_SIZE_MAX (abi : ABI) : abi.SSIZE_MAX < abi.SIZE_MAX := by
  have he := abi.sizeMod_even
  have hf := abi.sizeBytes_fit
  unfold ABI.SSIZE_MAX ABI.SIZE_MAX
  omega

theorem length_frame (abi : ABI) (b : List Byte) :
    (frame abi b).length = abi.sizeBytes + b.length := by
  simp [frame, abi.length_bytesOfSize]

theorem writebuf_kern {κ : Type} (abi : ABI) (K : Kernel κ) (fd : Int) (c : comm)
    (v : List Byte) (sz : Nat) (p : Proc κ) :
    (writebuf abi K fd c v sz p).2.kern =
      if (K.write fd (abi.bytesOfSize (abi.wrapSize sz)) abi.sizeBytes p.kern).1.ret abi
          = abi.sizeBytes
      then (K.write fd (v.take (abi.wrapSize sz)) (abi.wrapSize sz)
            (K.write fd (abi.bytesOfSize (abi.wrapSize sz)) abi.sizeBytes p.kern).2).2
      else (K.write fd (abi.bytesOfSize (abi.wrapSize sz)) abi.sizeBytes p.kern).2 := by
  have hr1 := WriteOutcome.ret_range abi
    (K.write fd (abi.bytesOfSize (abi.wrapSize sz)) abi.sizeBytes p.kern).1
  have ha1 := accept_iff abi _ abi.sizeBytes hr1
  simp only [writebuf, sysWrite_fst, sysWrite_kern, signal_kern]
  split_ifs <;> first | (exfalso; tauto) | simp

/-- On the FIFO `writebuf` leaves the frame of `b` on the channel. -/
theorem fifo_writebuf_kern (abi : ABI) (grant : Nat → Bool) (fd : Int) (c : comm)
    (b : List Byte) (hb : b.length ≤ abi.SIZE_MAX) (h : Handler) (s : Int) :
    (writebuf abi (fifo grant) fd c b b.length (Proc.start [] h s)).2.kern = frame abi b := by
  have hs := abi.toSsize_of_le abi.sizeBytes abi.sizeBytes_le_SSIZE_MAX
  rw [writebuf_kern, abi.wrapSize_of_le _ hb]
  simp only [fifo, WriteOutcome.ret, hs, if_true, Proc.start, List.nil_append, frame,
    List.take_length]
  rw [← abi.length_bytesOfSize b.length, List.take_length]

/-- On the FIFO `writebuf` succeeds exactly for lengths up to `SSIZE_MAX`. -/
theorem fifo_writebuf_rc (abi : ABI) (grant : Nat → Bool) (fd : Int) (c : comm)
    (b : List Byte) (hb : b.length ≤ abi.SIZE_MAX) (h : Handler) (s : Int) :
    (writebuf abi (fifo grant) fd c b b.length (Proc.start [] h s)).1 =
      if b.length ≤ abi.SSIZE_MAX then 1 else 0 := by
  have hs := abi.toSsize_of_le abi.sizeBytes abi.sizeBytes_le_SSIZE_MAX
  have heq := toSsize_eq_iff abi b.length b.length (le_refl _) hb
  rw [writebuf_rc, abi.wrapSize_of_le _ hb]
  simp only [fifo, WriteOutcome.ret, hs, true_and, heq]

/-- On the FIFO holding the frame of `b`, `readbuf` returns `b` with a zero
terminator when the allocation is served and the length is at most
`SSIZE_MAX`, and NULL otherwise. -/
theorem fifo_readbuf_frame (abi : ABI) (grant : Nat → Bool) (fd : Int) (c : comm)
    (sz0 : Nat) (b : List Byte) (hb : b.length ≤ abi.SIZE_MAX) (h : Handler) (s : Int) :
    (readbuf abi (fifo grant) fd c sz0 (Proc.start (frame abi b) h s)).sz = b.length ∧
    (readbuf abi (fifo grant) fd c sz0 (Proc.start (frame abi b) h s)).p =
      if grant (abi.wrapSize (b.length + 1)) = true ∧ b.length ≤ abi.SSIZE_MAX
      then some (b ++ [0]) else none := by
  have hlenf : ((frame abi b).take abi.sizeBytes) = abi.bytesOfSize b.length := by
    unfold frame
    rw [List.take_append_of_le_length (by rw [abi.length_bytesOfSize]),
      ← abi.length_bytesOfSize b.length, List.take_length]
  have hdrop : (frame abi b).drop abi.sizeBytes = b := by
    unfold frame
    rw [List.drop_append_of_le_length (by rw [abi.length_bytesOfSize]),
      ← abi.length_bytesOfSize b.length, List.drop_length, List.nil_append]
  have hread : ((fifo grant).read fd abi.sizeBytes (Proc.start (frame abi b) h s).kern).1
      = ReadOutcome.data (abi.bytesOfSize b.length) := by
    simp only [fifo, Proc.start, hlenf]
  have hS : abi.sizeOfBytes ((abi.bytesOfSize b.length).take abi.sizeBytes) = b.length := by
    rw [← abi.length_bytesOfSize b.length, List.take_length, abi.sizeOfBytes_bytesOfSize,
      abi.wrapSize_of_le _ hb]
  have key := readbuf_of_length_read abi (fifo grant) fd c sz0 (Proc.start (frame abi b) h s)
    (abi.bytesOfSize b.length) hread (by rw [abi.length_bytesOfSize])
  rw [hS] at key
  refine ⟨key.1, ?_⟩
  rw [key.2]
  simp only [fifo, Proc.start, hdrop, one_mul, List.take_length, le_refl, true_and]
  by_cases hc : grant (abi.wrapSize (b.length + 1)) = true ∧ b.length ≤ abi.SSIZE_MAX
  · rw [if_pos hc, if_pos hc.1, if_pos hc.2]
    have hw : abi.wrapSize (b.length + 1) = b.length + 1 := by
      have := abi.SSIZE_MAX_lt_SIZE_MAX
      exact abi.wrapSize_of_le _ (by omega)
    rw [hw]
    simp [overlay, List.drop_replicate]
  · rw [if_neg hc]
    by_cases hg : grant (abi.wrapSize (b.length + 1)) = true
    · rw [if_pos hg, if_neg (fun hh => hc ⟨hg, hh⟩)]
    · rw [if_neg hg]

/-- On the FIFO holding only the first `n` bytes of a frame, with `n` less
than the length of the frame, `readbuf` returns NULL. -/
theorem fifo_readbuf_truncated (abi : ABI) (grant : Nat → Bool) (fd : Int) (c : comm)
    (sz0 : Nat) (b : List Byte) (hb : b.length ≤ abi.SIZE_MAX) (n : Nat)
    (hn : n < (frame abi b).length) (h : Handler) (s : Int) :
    (readbuf abi (fifo grant) fd c sz0 (Proc.start ((frame abi b).take n) h s)).p = none := by
  rw [length_frame] at hn
  have hlq : ((frame abi b).take n).length = n := by
    rw [List.length_take, length_frame]; omega
  by_cases hcase : n < abi.sizeBytes
  · apply readbuf_of_length_short abi (fifo grant) fd c sz0 _
      (((frame abi b).take n).take abi.sizeBytes)
    · simp only [fifo, Proc.start]
    · rw [List.length_take, hlq]; omega
  · have hW : abi.sizeBytes ≤ n := by omega
    have htake : ((frame abi b).take n).take abi.sizeBytes = abi.bytesOfSize b.length := by
      rw [List.take_take, min_eq_left hW]
      unfold frame
      rw [List.take_append_of_le_length (by rw [abi.length_bytesOfSize]),
        ← abi.length_bytesOfSize b.length, List.take_length]
    have hread : ((fifo grant).read fd abi.sizeBytes
        (Proc.start ((frame abi b).take n) h s).kern).1
        = ReadOutcome.data (abi.bytesOfSize b.length) := by
      simp only [fifo, Proc.start, htake]
    have hS : abi.sizeOfBytes ((abi.bytesOfSize b.length).take abi.sizeBytes) = b.length := by
      rw [← abi.length_bytesOfSize b.length, List.take_length, abi.sizeOfBytes_bytesOfSize,
        abi.wrapSize_of_le _ hb]
    have key := readbuf_of_length_read abi (fifo grant) fd c sz0
      (Proc.start ((frame abi b).take n) h s) (abi.bytesOfSize b.length) hread
      (by rw [abi.length_bytesOfSize])
    rw [hS] at key
    rw [key.2]
    have hshort : ¬ (b.length ≤ ((((frame abi b).take n).drop abi.sizeBytes).take b.length).length ∧
        b.length ≤ abi.SSIZE_MAX) := by
      rw [List.length_take, List.length_drop, hlq]
      omega
    simp only [fifo, Proc.start, if_neg hshort]
    split <;> rfl

/-! ## Scalar read: outcome and the three-way distinction -/

/-- C2. Scalar read outcome: whatever the single `read` of `sizeof(long)` bytes
does, `readop` returns `LONG_MAX` when it reports an error, `0` when it
returns no byte (end-of-channel), `LONG_MAX` when it returns a byte count
strictly between `0` and `sizeof(long)`, and the `long` whose representation
was read when it returns `sizeof(long)` bytes; a complete read of the
representation of `v` returns `v`. -/
theorem readop_outcome {κ : Type} (abi : ABI) (K : Kernel κ) (fd : Int) (c : comm)
    (p : Proc κ) :
    ((K.read fd abi.longBytes p.kern).1 = ReadOutcome.error →
        (readop abi K fd c p).1 = abi.LONG_MAX) ∧
    (∀ bs : List Byte, (K.read fd abi.longBytes p.kern).1 = ReadOutcome.data bs →
        (bs.length = 0 → (readop abi K fd c p).1 = 0) ∧
        (0 < bs.length → bs.length < abi.longBytes →
          (readop abi K fd c p).1 = abi.LONG_MAX) ∧
        (bs.length = abi.longBytes → (readop abi K fd c p).1 = abi.longOfBytes bs)) ∧
    (∀ v : Int, abi.LONG_MIN ≤ v → v ≤ abi.LONG_MAX →
        (K.read fd abi.longBytes p.kern).1 = ReadOutcome.data (abi.bytesOfLong v) →
        (readop abi K fd c p).1 = v) := by
  exact ⟨readop_of_error abi K fd c p,
    fun bs h => ⟨readop_of_eof abi K fd c p bs h, readop_of_short abi K fd c p bs h,
      readop_of_full abi K fd c p bs h⟩,
    fun v h1 h2 h => readop_of_value abi K fd c p v h1 h2 h⟩

/-- C3, as stated, fails: on LP64 a complete read of the value `0` returns the
same result as end-of-channel, and a complete read of `LONG_MAX` returns the
same result as a short read. -/
theorem readop_sentinels_collide :
    (readop ABI.lp64 (fifo (fun _ => true)) 0 comm.COMM_CHNG_OP
        (Proc.start (ABI.lp64.bytesOfLong 0) Handler.SIG_DFL 0)).1
      = (readop ABI.lp64 (fifo (fun _ => true)) 0 comm.COMM_CHNG_OP
        (Proc.start [] Handler.SIG_DFL 0)).1 ∧
    (readop ABI.lp64 (fifo (fun _ => true)) 0 comm.COMM_CHNG_OP
        (Proc.start (ABI.lp64.bytesOfLong ABI.lp64.LONG_MAX) Handler.SIG_DFL 0)).1
      = (readop ABI.lp64 (fifo (fun _ => true)) 0 comm.COMM_CHNG_OP
        (Proc.start [1, 0, 0] Handler.SIG_DFL 0)).1 := by
  decide

/-- C3, amended. For every `long` value `v` other than `0` and `LONG_MAX`, the
result of `readop` after a complete read of `v` differs from its result at
end-of-channel and from its result on failure (an error or a short read), and
the end-of-channel result differs from the failure result. -/
theorem readop_three_way {κ : Type} (abi : ABI) (K : Kernel κ) (fd : Int) (c : comm)
    (p pe pf : Proc κ) (v : Int) (hmin : abi.LONG_MIN ≤ v) (hmax : v ≤ abi.LONG_MAX)
    (h0 : v ≠ 0) (hM : v ≠ abi.LONG_MAX)
    (hfull : (K.read fd abi.longBytes p.kern).1 = ReadOutcome.data (abi.bytesOfLong v))
    (heof : (K.read fd abi.longBytes pe.kern).1 = ReadOutcome.data [])
    (hfail : (K.read fd abi.longBytes pf.kern).1 = ReadOutcome.error ∨
      ∃ bs : List Byte, (K.read fd abi.longBytes pf.kern).1 = ReadOutcome.data bs ∧
        0 < bs.length ∧ bs.length < abi.longBytes) :
    (readop abi K fd c p).1 ≠ (readop abi K fd c pe).1 ∧
    (readop abi K fd c p).1 ≠ (readop abi K fd c pf).1 ∧
    (readop abi K fd c pe).1 ≠ (readop abi K fd c pf).1 := by
  have hv : (readop abi K fd c p).1 = v := readop_of_value abi K fd c p v hmin hmax hfull
  have he : (readop abi K fd c pe).1 = 0 := readop_of_eof abi K fd c pe [] heof rfl
  have hf : (readop abi K fd c pf).1 = abi.LONG_MAX := by
    rcases hfail with h | ⟨bs, h, h1, h2⟩
    · exact readop_of_error abi K fd c pf h
    · exact readop_of_short abi K fd c pf bs h h1 h2
  have hpos := abi.LONG_MAX_pos
  rw [hv, he, hf]
  exact ⟨h0, hM, by omega⟩

/-- Witness for C3: on LP64, the value `7`, an empty channel and a channel
holding two bytes. -/
theorem readop_three_way_witness :
    (ABI.lp64.LONG_MIN ≤ 7 ∧ (7 : Int) ≤ ABI.lp64.LONG_MAX ∧ (7 : Int) ≠ 0 ∧
      (7 : Int) ≠ ABI.lp64.LONG_MAX) ∧
    (readop ABI.lp64 (fifo (fun _ => true)) 0 comm.COMM_CHNG_OP
        (Proc.start (ABI.lp64.bytesOfLong 7) Handler.SIG_DFL 0)).1
      ≠ (readop ABI.lp64 (fifo (fun _ => true)) 0 comm.COMM_CHNG_OP
        (Proc.start [] Handler.SIG_DFL 0)).1 ∧
    (readop ABI.lp64 (fifo (fun _ => true)) 0 comm.COMM_CHNG_OP
        (Proc.start (ABI.lp64.bytesOfLong 7) Handler.SIG_DFL 0)).1
      ≠ (readop ABI.lp64 (fifo (fun _ => true)) 0 comm.COMM_CHNG_OP
        (Proc.start [1, 2] Handler.SIG_DFL 0)).1 ∧
    (readop ABI.lp64 (fifo (fun _ => true)) 0 comm.COMM_CHNG_OP
        (Proc.start [] Handler.SIG_DFL 0)).1
      ≠ (readop ABI.lp64 (fifo (fun _ => true)) 0 comm.COMM_CHNG_OP
        (Proc.start [1, 2] Handler.SIG_DFL 0)).1 :=
  And.intro (by decide) <| readop_three_way ABI.lp64 (fifo (fun _ => true)) 0 comm.COMM_CHNG_OP
    (Proc.start (ABI.lp64.bytesOfLong 7) Handler.SIG_DFL 0)
    (Proc.start [] Handler.SIG_DFL 0) (Proc.start [1, 2] Handler.SIG_DFL 0) 7
    (by decide) (by decide) (by decide) (by decide) (by decide) (by decide)
    (Or.inr ⟨[1, 2], by decide, by decide, by decide⟩)

/-! ## Writes: failure as a unit, and the `SIGPIPE` disposition -/

/-- C8. Writes fail as a unit: `writeop` issues one `write` and returns
non-zero exactly when it returned `sizeof(long)`; `writebuf` returns non-zero
exactly when the length write returned `sizeof(size_t)` and the payload write
returned `sz`; and when the length write returned anything else (an error or
a short count), the length write is the only `write` that `writebuf` issues. -/
theorem writes_fail_as_unit {κ : Type} (abi : ABI) (K : Kernel κ) (fd : Int) (c : comm)
    (op : Int) (v : List Byte) (sz : Nat) (p : Proc κ) :
    ((writeop abi K fd c op p).1 ≠ 0 ↔
      (K.write fd (abi.bytesOfLong op) abi.longBytes p.kern).1.ret abi = abi.longBytes) ∧
    ((writeop abi K fd c op p).2.trace.filter Event.isWrite
      = p.trace.filter Event.isWrite ++
        [Event.write fd (abi.bytesOfLong op) abi.longBytes Handler.sigpipe
          (K.write fd (abi.bytesOfLong op) abi.longBytes p.kern).1]) ∧
    ((writebuf abi K fd c v sz p).1 ≠ 0 ↔
      (K.write fd (abi.bytesOfSize (abi.wrapSize sz)) abi.sizeBytes p.kern).1.ret abi
          = abi.sizeBytes ∧
        (K.write fd (v.take (abi.wrapSize sz)) (abi.wrapSize sz)
          (K.write fd (abi.bytesOfSize (abi.wrapSize sz)) abi.sizeBytes p.kern).2).1.ret abi
          = (abi.wrapSize sz : Int)) ∧
    ((K.write fd (abi.bytesOfSize (abi.wrapSize sz)) abi.sizeBytes p.kern).1.ret abi
        ≠ abi.sizeBytes →
      (writebuf abi K fd c v sz p).2.trace.filter Event.isWrite
        = p.trace.filter Event.isWrite ++
          [Event.write fd (abi.bytesOfSize (abi.wrapSize sz)) abi.sizeBytes Handler.sigpipe
            (K.write fd (abi.bytesOfSize (abi.wrapSize sz)) abi.sizeBytes p.kern).1]) := by
  refine ⟨?_, writeop_writes abi K fd c op p, ?_,
    writebuf_writes_of_length_failed abi K fd c v sz p⟩
  · rw [writeop_rc]
    split_ifs with h <;> simp [h]
  · rw [writebuf_rc]
    split_ifs with h
    · simp [h.1, h.2]
    · simp only [ne_eq, not_true_eq_false, false_iff]
      exact h

/-- C9. Signal handler restoration: whatever the `SIGPIPE` disposition `h`
before the call and whatever the `write`s do, after `writeop` and after
`writebuf` the disposition is `h` again, every `write` they issue runs with the
handler `sigpipe` installed, and the first and last calls of each are the
`signal` that installs `sigpipe` over `h` and the `signal` that puts `h` back. -/
theorem sigpipe_disposition_restored {κ : Type} (abi : ABI) (K : Kernel κ) (fd : Int)
    (c : comm) (op : Int) (v : List Byte) (sz : Nat) (k : κ) (h : Handler) (s : Int) :
    ((writeop abi K fd c op (Proc.start k h s)).2.disp = h ∧
      (∀ e ∈ (writeop abi K fd c op (Proc.start k h s)).2.trace,
        e.isWrite = true → e.writeDisp = some Handler.sigpipe) ∧
      (writeop abi K fd c op (Proc.start k h s)).2.trace.head?
        = some (Event.signal Handler.sigpipe h) ∧
      (writeop abi K fd c op (Proc.start k h s)).2.trace.getLast?
        = some (Event.signal h Handler.sigpipe)) ∧
    ((writebuf abi K fd c v sz (Proc.start k h s)).2.disp = h ∧
      (∀ e ∈ (writebuf abi K fd c v sz (Proc.start k h s)).2.trace,
        e.isWrite = true → e.writeDisp = some Handler.sigpipe) ∧
      (writebuf abi K fd c v sz (Proc.start k h s)).2.trace.head?
        = some (Event.signal Handler.sigpipe h) ∧
      (writebuf abi K fd c v sz (Proc.start k h s)).2.trace.getLast?
        = some (Event.signal h Handler.sigpipe)) :=
  ⟨⟨writeop_disp abi K fd c op _, writeop_write_disp abi K fd c op k h s,
      writeop_trace_ends abi K fd c op k h s⟩,
    ⟨writebuf_disp abi K fd c v sz _, writebuf_write_disp abi K fd c v sz k h s,
      writebuf_trace_ends abi K fd c v sz k h s⟩⟩

/-! ## Supervisor and privilege drop -/

/-- C7. Supervisor classification: `checkexit` returns non-zero exactly when
`waitpid` did not return `-1` and the status it stored is a normal exit
(`WIFEXITED`) with exit status `0`; in terms of how the child ended, exactly
when the wait succeeded and the child exited with code `0`: a failed wait, a
death by signal, a stop, and an exit with a non-zero code all return zero. -/
theorem checkexit_classification (waitpid : Int → Int × Nat) (compname : Nat → String)
    (sys_signame : Nat → String) (pid : Int) (comp : Nat) :
    ((checkexit waitpid compname sys_signame pid comp).1 ≠ 0 ↔
      (waitpid pid).1 ≠ -1 ∧ WIFEXITED (waitpid pid).2 = true ∧
        WEXITSTATUS (waitpid pid).2 = 0) ∧
    (∀ (ret : Int) (e : ChildEnd), waitpid pid = (ret, e.wstatus) →
      ((checkexit waitpid compname sys_signame pid comp).1 ≠ 0 ↔
        ret ≠ -1 ∧ e = ChildEnd.exited 0)) := by
  have key : (checkexit waitpid compname sys_signame pid comp).1 ≠ 0 ↔
      (waitpid pid).1 ≠ -1 ∧ WIFEXITED (waitpid pid).2 = true ∧
        WEXITSTATUS (waitpid pid).2 = 0 := by
    rw [checkexit_rc]
    split_ifs with h
    · simp [h.1, h.2.1, h.2.2]
    · simp only [ne_eq, not_true_eq_false, false_iff]
      exact h
  refine ⟨key, ?_⟩
  intro ret e hw
  rw [key, hw]
  cases e with
  | exited code =>
    rw [WIFEXITED_exited, WEXITSTATUS_exited]
    have hc : (ChildEnd.exited code = ChildEnd.exited 0) ↔ code.val = 0 := by
      constructor
      · intro h; injection h with h; rw [h]; rfl
      · intro h; congr 1; exact Fin.ext h
    rw [hc]
    simp
  | signaled sig core =>
    rw [WIFEXITED_signaled]
    simp
  | stopped sig =>
    rw [WIFEXITED_stopped]
    simp

/-- C5. Privilege-drop verification: whatever the identity-changing calls do
(they may report success and change nothing), `dropprivs` returns non-zero only
if the live real gid, effective gid, real uid and effective uid all equal the
requested targets at the closing check; if one of the four differs, it
returns zero. -/
theorem dropprivs_verified {κ : Type} (K : IdKernel κ) (plat : Platform) (uid gid : Nat)
    (k : κ) :
    ((dropprivs K plat uid gid k).1 ≠ 0 →
      K.getgid (dropprivs K plat uid gid k).2.kern = gid ∧
      K.getegid (dropprivs K plat uid gid k).2.kern = gid ∧
      K.getuid (dropprivs K plat uid gid k).2.kern = uid ∧
      K.geteuid (dropprivs K plat uid gid k).2.kern = uid) ∧
    ((K.getgid (dropprivs K plat uid gid k).2.kern ≠ gid ∨
      K.getegid (dropprivs K plat uid gid k).2.kern ≠ gid ∨
      K.getuid (dropprivs K plat uid gid k).2.kern ≠ uid ∨
      K.geteuid (dropprivs K plat uid gid k).2.kern ≠ uid) →
      (dropprivs K plat uid gid k).1 = 0) := by
  have hrc := dropprivs_rc K plat uid gid k
  constructor
  · intro h
    by_contra hne
    rw [if_neg (fun hh => hne hh.2)] at hrc
    exact h hrc
  · intro h
    rw [if_neg (by tauto)] at hrc
    exact hrc

/-- Witness for C5: a root process on a kernel that carries out the calls ends
with the target identity and a non-zero result; on a kernel whose `setresuid`
reports success but leaves the real uid, the result is zero. -/
theorem dropprivs_verified_witness :
    (dropprivs obedient Platform.openbsd 1000 1000 rootCred).1 ≠ 0 ∧
    (obedient.getgid (dropprivs obedient Platform.openbsd 1000 1000 rootCred).2.kern = 1000 ∧
      obedient.getegid (dropprivs obedient Platform.openbsd 1000 1000 rootCred).2.kern = 1000 ∧
      obedient.getuid (dropprivs obedient Platform.openbsd 1000 1000 rootCred).2.kern = 1000 ∧
      obedient.geteuid (dropprivs obedient Platform.openbsd 1000 1000 rootCred).2.kern
        = 1000) ∧
    (dropprivs silent Platform.openbsd 1000 1000 rootCred).1 = 0 :=
  ⟨by decide,
    (dropprivs_verified obedient Platform.openbsd 1000 1000 rootCred).1 (by decide),
    (dropprivs_verified silent Platform.openbsd 1000 1000 rootCred).2
      (Or.inr (Or.inr (Or.inl (by decide))))⟩

/-- C6. Privilege-drop ordering and terminal failure: in both configurations
the identity-changing calls `dropprivs` issues are a non-empty initial segment
of the fixed sequence (supplementary groups to the single target gid, then the
group id(s), then the user id(s)); every call before the last one issued
returned zero, so a user-id change is only issued after every group change was
issued and returned zero; a call that returns non-zero is the last one issued
and makes `dropprivs` return zero; and if no call fails the whole sequence is
issued. -/
theorem dropprivs_ordered {κ : Type} (K : IdKernel κ) (plat : Platform) (uid gid : Nat)
    (k : κ) :
    0 < (dropprivs K plat uid gid k).2.calls.length ∧
    (dropprivs K plat uid gid k).2.calls.map Prod.fst
      = (idSequence plat uid gid).take (dropprivs K plat uid gid k).2.calls.length ∧
    (∀ e ∈ (dropprivs K plat uid gid k).2.calls.dropLast, e.2 = 0) ∧
    (∀ e ∈ (dropprivs K plat uid gid k).2.calls, e.1.isUser = true →
      ∀ g ∈ idSequence plat uid gid, g.isGroup = true →
        (g, (0 : Int)) ∈ (dropprivs K plat uid gid k).2.calls) ∧
    ((∃ e ∈ (dropprivs K plat uid gid k).2.calls, e.2 ≠ 0) →
      (dropprivs K plat uid gid k).1 = 0) ∧
    ((∀ e ∈ (dropprivs K plat uid gid k).2.calls, e.2 = 0) →
      (dropprivs K plat uid gid k).2.calls.map Prod.fst = idSequence plat uid gid) := by
  have hs := dropChain_shape K plat uid gid k
  have hg := dropChain_group_first K plat uid gid k
  have hrc := dropprivs_rc K plat uid gid k
  rw [dropprivs_calls]
  refine ⟨hs.1, hs.2.1, hs.2.2.1, hg, ?_, ?_⟩
  · intro h
    have ht := hs.2.2.2.1.mpr h
    rw [if_neg (by rw [ht]; simp)] at hrc
    exact hrc
  · intro h
    apply hs.2.2.2.2
    cases hb : (dropChain K plat uid gid { kern := k, calls := [], diags := [] }).1
    · rfl
    · obtain ⟨e, he, hne⟩ := hs.2.2.2.1.mp hb
      exact absurd (h e he) hne

/-! ## Buffer frames -/

/-- C1, as stated, fails. On LP64 with an allocator that serves every request:
for a byte sequence of length `SSIZE_MAX + 1 = 2^63`, `writebuf` returns zero;
for one of the maximal `size_t` length `2^64 - 1`, `writebuf` returns zero and
`readbuf` on the channel it leaves returns NULL.  With an allocator that
serves no request, `readbuf` after a successful `writebuf` of three bytes
returns NULL. -/
theorem buffer_round_trip_fails_for_huge_lengths :
    (writebuf ABI.lp64 (fifo (fun _ => true)) 1 comm.COMM_PAY
        (List.replicate (2 ^ 63) 0) (2 ^ 63) (Proc.start [] Handler.SIG_DFL 0)).1 = 0 ∧
    (writebuf ABI.lp64 (fifo (fun _ => true)) 1 comm.COMM_PAY
        (List.replicate (2 ^ 64 - 1) 0) (2 ^ 64 - 1) (Proc.start [] Handler.SIG_DFL 0)).1 = 0 ∧
    (readbuf ABI.lp64 (fifo (fun _ => true)) 0 comm.COMM_PAY 0
        (Proc.start
          (writebuf ABI.lp64 (fifo (fun _ => true)) 1 comm.COMM_PAY
            (List.replicate (2 ^ 64 - 1) 0) (2 ^ 64 - 1)
            (Proc.start [] Handler.SIG_DFL 0)).2.kern
          Handler.SIG_DFL 0)).p = none ∧
    ((writebuf ABI.lp64 (fifo (fun _ => false)) 1 comm.COMM_PAY [104, 105, 33] 3
        (Proc.start [] Handler.SIG_DFL 0)).1 = 1 ∧
      (readbuf ABI.lp64 (fifo (fun _ => false)) 0 comm.COMM_PAY 0
        (Proc.start
          (writebuf ABI.lp64 (fifo (fun _ => false)) 1 comm.COMM_PAY [104, 105, 33] 3
            (Proc.start [] Handler.SIG_DFL 0)).2.kern
          Handler.SIG_DFL 0)).p = none) := by
  have hmax : ABI.lp64.SIZE_MAX = 2 ^ 64 - 1 := by decide
  have hsmax : ABI.lp64.SSIZE_MAX = 2 ^ 63 - 1 := by decide
  have h1 : (List.replicate (2 ^ 63) (0 : Byte)).length = 2 ^ 63 := List.length_replicate _ _
  have h2 : (List.replicate (2 ^ 64 - 1) (0 : Byte)).length = 2 ^ 64 - 1 :=
    List.length_replicate _ _
  have hb1 : (List.replicate (2 ^ 63) (0 : Byte)).length ≤ ABI.lp64.SIZE_MAX := by
    rw [h1, hmax]; norm_num
  have hb2 : (List.replicate (2 ^ 64 - 1) (0 : Byte)).length ≤ ABI.lp64.SIZE_MAX := by
    rw [h2, hmax]
  have w1 := fifo_writebuf_rc ABI.lp64 (fun _ => true) 1 comm.COMM_PAY
    (List.replicate (2 ^ 63) 0) hb1 Handler.SIG_DFL 0
  have w2 := fifo_writebuf_rc ABI.lp64 (fun _ => true) 1 comm.COMM_PAY
    (List.replicate (2 ^ 64 - 1) 0) hb2 Handler.SIG_DFL 0
  have k2 := fifo_writebuf_kern ABI.lp64 (fun _ => true) 1 comm.COMM_PAY
    (List.replicate (2 ^ 64 - 1) 0) hb2 Handler.SIG_DFL 0
  have r2 := fifo_readbuf_frame ABI.lp64 (fun _ => true) 0 comm.COMM_PAY 0
    (List.replicate (2 ^ 64 - 1) 0) hb2 Handler.SIG_DFL 0
  rw [h1] at w1
  rw [h2] at w2 k2 r2
  refine ⟨?_, ?_, ?_, by decide⟩
  · rw [w1, if_neg (by rw [hsmax]; norm_num)]
  · rw [w2, if_neg (by rw [hsmax]; norm_num)]
  · rw [k2, r2.2, if_neg (by rw [hsmax]; norm_num)]

/-- C1, amended. Over the FIFO channel, for every byte sequence `b` of length
`L` with `0 ≤ L ≤ SSIZE_MAX`, when `calloc` serves the `L + 1` bytes of the
receive buffer: `writebuf` of `b` on an empty channel returns `1` and leaves
exactly the frame of `b`, and the following `readbuf` returns a buffer holding
`b` followed by one zero byte and sets `sz = L`. -/
theorem buffer_round_trip (abi : ABI) (grant : Nat → Bool) (b : List Byte)
    (hL : b.length ≤ abi.SSIZE_MAX) (hg : grant (b.length + 1) = true)
    (fdw fdr : Int) (cw cr : comm) (hw hr : Handler) (sw sr : Int) (sz0 : Nat) :
    (writebuf abi (fifo grant) fdw cw b b.length (Proc.start [] hw sw)).1 = 1 ∧
    (writebuf abi (fifo grant) fdw cw b b.length (Proc.start [] hw sw)).2.kern = frame abi b ∧
    (readbuf abi (fifo grant) fdr cr sz0
      (Proc.start (writebuf abi (fifo grant) fdw cw b b.length (Proc.start [] hw sw)).2.kern
        hr sr)).p = some (b ++ [0]) ∧
    (readbuf abi (fifo grant) fdr cr sz0
      (Proc.start (writebuf abi (fifo grant) fdw cw b b.length (Proc.start [] hw sw)).2.kern
        hr sr)).sz = b.length := by
  have hlt := abi.SSIZE_MAX_lt_SIZE_MAX
  have hb : b.length ≤ abi.SIZE_MAX := by omega
  have hw1 : abi.wrapSize (b.length + 1) = b.length + 1 := abi.wrapSize_of_le _ (by omega)
  have k := fifo_writebuf_kern abi grant fdw cw b hb hw sw
  have r := fifo_readbuf_frame abi grant fdr cr sz0 b hb hr sr
  refine ⟨?_, k, ?_, ?_⟩
  · rw [fifo_writebuf_rc abi grant fdw cw b hb hw sw, if_pos hL]
  · rw [k, r.2, hw1, if_pos ⟨hg, hL⟩]
  · rw [k, r.1]

/-- Witness for C1: three bytes on LP64. -/
theorem buffer_round_trip_witness :
    ([104, 105, 33] : List Byte).length ≤ ABI.lp64.SSIZE_MAX ∧
    (writebuf ABI.lp64 (fifo (fun _ => true)) 1 comm.COMM_PAY [104, 105, 33] 3
      (Proc.start [] Handler.SIG_IGN 0)).1 = 1 ∧
    (readbuf ABI.lp64 (fifo (fun _ => true)) 0 comm.COMM_PAY 0
      (Proc.start (writebuf ABI.lp64 (fifo (fun _ => true)) 1 comm.COMM_PAY [104, 105, 33] 3
        (Proc.start [] Handler.SIG_IGN 0)).2.kern Handler.SIG_DFL 0)).p
      = some [104, 105, 33, 0] ∧
    (readbuf ABI.lp64 (fifo (fun _ => true)) 0 comm.COMM_PAY 0
      (Proc.start (writebuf ABI.lp64 (fifo (fun _ => true)) 1 comm.COMM_PAY [104, 105, 33] 3
        (Proc.start [] Handler.SIG_IGN 0)).2.kern Handler.SIG_DFL 0)).sz = 3 :=
  have h := buffer_round_trip ABI.lp64 (fun _ => true) [104, 105, 33] (by decide) rfl
    1 0 comm.COMM_PAY comm.COMM_PAY Handler.SIG_IGN Handler.SIG_DFL 0 0 0
  ⟨by decide, h.1, h.2.2.1, h.2.2.2⟩

/-- C4. Truncated buffer frame is rejected: for every frame (the length field
of `L ≤ SIZE_MAX` followed by `L` payload bytes) and every `n` less than the
length of the frame, `readbuf` on a channel that holds only the first `n`
bytes of the frame and is then at end-of-channel returns NULL, whatever the
allocator does. -/
theorem readbuf_rejects_truncated_frame (abi : ABI) (grant : Nat → Bool) (b : List Byte)
    (hb : b.length ≤ abi.SIZE_MAX) (n : Nat) (hn : n < (frame abi b).length)
    (fd : Int) (c : comm) (sz0 : Nat) (h : Handler) (s : Int) :
    (readbuf abi (fifo grant) fd c sz0 (Proc.start ((frame abi b).take n) h s)).p = none :=
  fifo_readbuf_truncated abi grant fd c sz0 b hb n hn h s

/-- Witness for C4: the frame of three bytes on LP64 cut after its length
field and one payload byte. -/
theorem readbuf_rejects_truncated_frame_witness :
    ([104, 105, 33] : List Byte).length ≤ ABI.lp64.SIZE_MAX ∧
    9 < (frame ABI.lp64 [104, 105, 33]).length ∧
    (readbuf ABI.lp64 (fifo (fun _ => true)) 0 comm.COMM_CERT 0
      (Proc.start ((frame ABI.lp64 [104, 105, 33]).take 9) Handler.SIG_DFL 0)).p = none :=
  ⟨by decide, by decide,
    readbuf_rejects_truncated_frame ABI.lp64 (fun _ => true) [104, 105, 33] (by decide) 9
      (by decide) 0 comm.COMM_CERT 0 Handler.SIG_DFL 0⟩

/-- C10, at the failing input. On LP64 a channel holds a length field of
`SIZE_MAX = 2^64 - 1` and one more byte: `readbuf` sets `sz = 2^64 - 1`, asks
`calloc` for `0` bytes (`*sz + 1` wrapped), and issues the payload read of
`2^64 - 1` bytes into that object, which stores one byte. -/
theorem readbuf_alloc_wraps_at_SIZE_MAX :
    (readbuf ABI.lp64 (fifo (fun _ => true)) 0 comm.COMM_PAY 0
      (Proc.start [255, 255, 255, 255, 255, 255, 255, 255, 65] Handler.SIG_DFL 0)).sz
      = 18446744073709551615 ∧
    (readbuf ABI.lp64 (fifo (fun _ => true)) 0 comm.COMM_PAY 0
      (Proc.start [255, 255, 255, 255, 255, 255, 255, 255, 65] Handler.SIG_DFL 0)).proc.trace
      = [Event.read 0 8 (ReadOutcome.data [255, 255, 255, 255, 255, 255, 255, 255]),
         Event.calloc 1 0 true,
         Event.read 0 18446744073709551615 (ReadOutcome.data [65]),
         Event.diag (Diag.dowarnx "short read: %s" ["payload"]),
         Event.free false] := by
  decide

/-! ## The theorems at concrete inputs -/

/-- Instance of C2 on LP64: a complete read of `-5` returns `-5`, an empty
channel returns `0`, three queued bytes return `LONG_MAX`, and a failing read
returns `LONG_MAX`. -/
theorem readop_outcome_witness :
    (readop ABI.lp64 (fifo (fun _ => true)) 0 comm.COMM_CHNG_OP
      (Proc.start (ABI.lp64.bytesOfLong (-5)) Handler.SIG_DFL 0)).1 = -5 ∧
    (readop ABI.lp64 (fifo (fun _ => true)) 0 comm.COMM_CHNG_OP
      (Proc.start [] Handler.SIG_DFL 0)).1 = 0 ∧
    (readop ABI.lp64 (fifo (fun _ => true)) 0 comm.COMM_CHNG_OP
      (Proc.start [1, 2, 3] Handler.SIG_DFL 0)).1 = ABI.lp64.LONG_MAX ∧
    (readop ABI.lp64 broken 0 comm.COMM_CHNG_OP
      (Proc.start () Handler.SIG_DFL 0)).1 = ABI.lp64.LONG_MAX :=
  ⟨(readop_outcome ABI.lp64 (fifo (fun _ => true)) 0 comm.COMM_CHNG_OP
      (Proc.start (ABI.lp64.bytesOfLong (-5)) Handler.SIG_DFL 0)).2.2 (-5)
      (by decide) (by decide) (by decide),
    ((readop_outcome ABI.lp64 (fifo (fun _ => true)) 0 comm.COMM_CHNG_OP
      (Proc.start [] Handler.SIG_DFL 0)).2.1 [] (by decide)).1 rfl,
    ((readop_outcome ABI.lp64 (fifo (fun _ => true)) 0 comm.COMM_CHNG_OP
      (Proc.start [1, 2, 3] Handler.SIG_DFL 0)).2.1 [1, 2, 3] (by decide)).2.1
      (by decide) (by decide),
    (readop_outcome ABI.lp64 broken 0 comm.COMM_CHNG_OP
      (Proc.start () Handler.SIG_DFL 0)).1 rfl⟩

/-- Instance of C8 on LP64: on the FIFO `writeop` succeeds; on a kernel whose
writes fail `writeop` and `writebuf` return zero and `writebuf` issues the
length write only. -/
theorem writes_fail_as_unit_witness :
    (writeop ABI.lp64 (fifo (fun _ => true)) 1 comm.COMM_CHNG_OP 42
      (Proc.start [] Handler.SIG_DFL 0)).1 ≠ 0 ∧
    ¬ (writeop ABI.lp64 broken 1 comm.COMM_CHNG_OP 42
      (Proc.start () Handler.SIG_DFL 0)).1 ≠ 0 ∧
    ¬ (writebuf ABI.lp64 broken 1 comm.COMM_PAY [1, 2] 2
      (Proc.start () Handler.SIG_DFL 0)).1 ≠ 0 ∧
    (writebuf ABI.lp64 broken 1 comm.COMM_PAY [1, 2] 2
      (Proc.start () Handler.SIG_DFL 0)).2.trace.filter Event.isWrite
      = [] ++ [Event.write 1 (ABI.lp64.bytesOfSize (ABI.lp64.wrapSize 2)) 8 Handler.sigpipe
          (WriteOutcome.error true)] :=
  ⟨(writes_fail_as_unit ABI.lp64 (fifo (fun _ => true)) 1 comm.COMM_CHNG_OP 42 [] 0
      (Proc.start [] Handler.SIG_DFL 0)).1.mpr (by decide),
    fun h => absurd ((writes_fail_as_unit ABI.lp64 broken 1 comm.COMM_CHNG_OP 42 [] 0
      (Proc.start () Handler.SIG_DFL 0)).1.mp h) (by decide),
    fun h => absurd ((writes_fail_as_unit ABI.lp64 broken 1 comm.COMM_CHNG_OP 42 [1, 2] 2
      (Proc.start () Handler.SIG_DFL 0)).2.2.1.mp h).1 (by decide),
    (writes_fail_as_unit ABI.lp64 broken 1 comm.COMM_CHNG_OP 42 [1, 2] 2
      (Proc.start () Handler.SIG_DFL 0)).2.2.2 (by decide)⟩

/-- Instance of C7: an exit with code `0` is accepted; an exit with code `1`,
a death by signal 9 and a failed wait are not. -/
theorem checkexit_classification_witness :
    (checkexit (fun _ => (42, (ChildEnd.exited 0).wstatus)) (fun _ => "netproc")
      (fun _ => "KILL") 42 0).1 ≠ 0 ∧
    ¬ (checkexit (fun _ => (42, (ChildEnd.exited 1).wstatus)) (fun _ => "netproc")
      (fun _ => "KILL") 42 0).1 ≠ 0 ∧
    ¬ (checkexit (fun _ => (42, (ChildEnd.signaled 8 false).wstatus)) (fun _ => "netproc")
      (fun _ => "KILL") 42 0).1 ≠ 0 ∧
    ¬ (checkexit (fun _ => (-1, (ChildEnd.exited 0).wstatus)) (fun _ => "netproc")
      (fun _ => "KILL") 42 0).1 ≠ 0 :=
  ⟨((checkexit_classification (fun _ => (42, (ChildEnd.exited 0).wstatus))
      (fun _ => "netproc") (fun _ => "KILL") 42 0).2 42 (ChildEnd.exited 0) rfl).mpr
      ⟨by decide, rfl⟩,
    fun h => absurd (((checkexit_classification (fun _ => (42, (ChildEnd.exited 1).wstatus))
      (fun _ => "netproc") (fun _ => "KILL") 42 0).2 42 (ChildEnd.exited 1) rfl).mp h).2
      (by decide),
    fun h => absurd (((checkexit_classification
      (fun _ => (42, (ChildEnd.signaled 8 false).wstatus))
      (fun _ => "netproc") (fun _ => "KILL") 42 0).2 42 (ChildEnd.signaled 8 false) rfl).mp h).2
      (by decide),
    fun h => absurd (((checkexit_classification (fun _ => (-1, (ChildEnd.exited 0).wstatus))
      (fun _ => "netproc") (fun _ => "KILL") 42 0).2 (-1) (ChildEnd.exited 0) rfl).mp h).1
      (by decide)⟩

/-- Instance of C6: on a kernel that carries out every call the whole sequence
is issued; on one where `setegid` fails the calls stop there and the result
is zero. -/
theorem dropprivs_ordered_witness :
    (dropprivs obedient Platform.other 1000 1000 rootCred).2.calls.map Prod.fst
      = idSequence Platform.other 1000 1000 ∧
    (dropprivs (refusing (IdCall.setegid 1000)) Platform.other 1000 1000 rootCred).2.calls
      = [(IdCall.setgroups [1000], 0), (IdCall.setegid 1000, -1)] ∧
    (dropprivs (refusing (IdCall.setegid 1000)) Platform.other 1000 1000 rootCred).1 = 0 :=
  ⟨(dropprivs_ordered obedient Platform.other 1000 1000 rootCred).2.2.2.2.2 (by decide),
    by decide,
    (dropprivs_ordered (refusing (IdCall.setegid 1000)) Platform.other 1000 1000
      rootCred).2.2.2.2.1 ⟨(IdCall.setegid 1000, -1), by decide, by decide⟩⟩
end AcmeUtil
